import Mathlib

set_option linter.unusedVariables false

/-!
Shallow embedding of the real-time notification core of the
sales-engagement platform: the WebSocket connection manager
(src/app/services/websocket_manager.py) together with the endpoint glue
(src/app/api/v1/websocket.py).  Python dicts are modelled as association
lists, Python sets as duplicate-free lists built by idempotent insertion,
timestamps as natural-number seconds, and the transport handle as a flag
saying whether send_text succeeds or raises.  Every manager method becomes
a pure state-passing function; frames delivered over a transport are
recorded in a transcript field of the state.
-/

/-- Message types of the frame protocol (WebSocketMessageType in
src/app/schemas/websocket.py). -/
inductive MsgType where
  | connect
  | disconnect
  | subscribe
  | unsubscribe
  | notification
  | heartbeat
  | error
  | ack
deriving DecidableEq, Repr

/-- Lookup in an association list, returning the value of the first binding
of the key; models reading a Python dict entry. -/
def alookup {α β : Type} [DecidableEq α] : List (α × β) → α → Option β
  | [], _ => none
  | (k, v) :: rest, k' => if k' = k then some v else alookup rest k'

/-- Replace the first binding of the key, or append a new binding; models
Python dict assignment (insertion order preserved). -/
def aset {α β : Type} [DecidableEq α] : List (α × β) → α → β → List (α × β)
  | [], k, v => [(k, v)]
  | (k', v') :: rest, k, v =>
      if k = k' then (k, v) :: rest else (k', v') :: aset rest k v

/-- Remove every binding of the key; models Python dict deletion (dict keys
are unique, so at most one binding is ever present). -/
def aerase {α β : Type} [DecidableEq α] (l : List (α × β)) (k : α) : List (α × β) :=
  l.filter (fun p => decide (p.1 ≠ k))

/-- Key membership test; models the Python `in` operator on a dict. -/
def hasKey {α β : Type} [DecidableEq α] (l : List (α × β)) (k : α) : Bool :=
  (alookup l k).isSome

/-- Read a set-valued entry of a defaultdict(set): a missing key reads as the
empty set. -/
def dGet {α : Type} [DecidableEq α] (d : List (α × List String)) (k : α) : List String :=
  (alookup d k).getD []

/-- Python set.add on a set modelled as a duplicate-free list. -/
def sinsert (l : List String) (x : String) : List String :=
  if x ∈ l then l else l ++ [x]

/-- Remove the first occurrence of an element; models both Python
set.discard (on duplicate-free lists) and Python list.remove. -/
def serase : List String → String → List String
  | [], _ => []
  | y :: rest, x => if y = x then rest else y :: serase rest x

/-- defaultdict(set) mutation `d[k].add(x)`: creates the entry when absent. -/
def dAdd {α : Type} [DecidableEq α] (d : List (α × List String)) (k : α) (x : String) :
    List (α × List String) :=
  aset d k (sinsert (dGet d k) x)

/-- defaultdict(set) mutation `d[k].discard(x)`: creates the (then possibly
empty) entry when absent, exactly as the Python defaultdict access does. -/
def dDiscard {α : Type} [DecidableEq α] (d : List (α × List String)) (k : α) (x : String) :
    List (α × List String) :=
  aset d k (serase (dGet d k) x)

/-- Python `if not d[k]: del d[k]` — drop the entry of the key when its set
is empty. -/
def prune {α : Type} [DecidableEq α] (d : List (α × List String)) (k : α) :
    List (α × List String) :=
  if (dGet d k).isEmpty then aerase d k else d

/-- A transport handle: `true` means send_text succeeds, `false` means every
send_text raises. -/
abbrev WebSocket := Bool

/-- An asyncio task spawned for a Redis channel listener
(_redis_subscription_handler); `done` mirrors Task.done(). -/
structure RTask where
  task_id : Nat
  done : Bool
deriving DecidableEq, Repr

/-- ConnectionInfo from src/app/schemas/websocket.py; `subscriptions` is a
Python list (appended to without a duplicate check). -/
structure ConnectionInfo where
  connection_id : String
  user_id : Nat
  tenant_id : String
  connected_at : Nat
  last_heartbeat : Nat
  subscriptions : List String
deriving DecidableEq, Repr

/-- Frame payload: the string-keyed data dict, with string values (payload
contents are opaque to the manager). -/
abbrev MsgData := List (String × String)

/-- A WebSocketMessage envelope (timestamp and message_id elided: no claim
observes them). -/
structure WSMessage where
  type : MsgType
  data : MsgData
deriving DecidableEq, Repr

/-- The full state of WebSocketConnectionManager.  `sent` is a transcript of
the frames successfully written to a transport, in order; `next_task_id`
numbers the spawned Redis listener tasks. -/
structure Manager where
  active_connections : List (String × WebSocket)
  connection_info : List (String × ConnectionInfo)
  user_connections : List (Nat × List String)
  tenant_connections : List (String × List String)
  channel_subscriptions : List (String × List String)
  redis_tasks : List (String × RTask)
  next_task_id : Nat
  sent : List (String × WSMessage)
deriving DecidableEq, Repr

/-- The state of the module-level `websocket_manager` at process start. -/
def initialManager : Manager := ⟨[], [], [], [], [], [], 0, []⟩

/-- WebSocketConnectionManager.disconnect: no-op on an unknown id; otherwise
discards the id from the user, tenant and every subscribed channel index,
prunes empty user and tenant entries (channel entries are left as they are),
and deletes the connection from the registry.  The Redis bookkeeping calls
are external I/O with all exceptions caught and touch no manager state. -/
def disconnect (s : Manager) (connection_id : String) : Manager :=
  if hasKey s.active_connections connection_id then
    let s1 :=
      match alookup s.connection_info connection_id with
      | some info =>
        let uc := prune (dDiscard s.user_connections info.user_id connection_id)
          info.user_id
        let tc := prune (dDiscard s.tenant_connections info.tenant_id connection_id)
          info.tenant_id
        let cs := info.subscriptions.foldl
          (fun d ch => dDiscard d ch connection_id) s.channel_subscriptions
        { s with user_connections := uc, tenant_connections := tc,
                 channel_subscriptions := cs }
      | none => s
    { s1 with active_connections := aerase s1.active_connections connection_id,
              connection_info := aerase s1.connection_info connection_id }
  else s

/-- WebSocketConnectionManager._send_to_connection: unknown id returns false;
a raising transport triggers disconnect of that one connection and returns
false; a successful send appends the frame to the transcript. -/
def send_to_connection (s : Manager) (connection_id : String) (message : WSMessage) :
    Manager × Bool :=
  match alookup s.active_connections connection_id with
  | none => (s, false)
  | some ws =>
    if ws then ({ s with sent := s.sent ++ [(connection_id, message)] }, true)
    else (disconnect s connection_id, false)

/-- WebSocketConnectionManager._send_error. -/
def send_error (s : Manager) (connection_id error_code message : String) : Manager :=
  (send_to_connection s connection_id
    ⟨MsgType.error, [("error_code", error_code), ("message", message)]⟩).1

/-- WebSocketConnectionManager.connect: registers the connection under the
generated id (an unconditional dict assignment: a colliding id overwrites),
indexes it by user and tenant, sends the CONNECT acknowledgement, and
returns the id.  The Redis persistence write catches its own exceptions and
touches no manager state. -/
def connect (s : Manager) (websocket : WebSocket) (user_id : Nat) (tenant_id : String)
    (uuid_suffix : String) (now : Nat) : Manager × String :=
  let connection_id := toString user_id ++ "_" ++ uuid_suffix
  let info : ConnectionInfo := ⟨connection_id, user_id, tenant_id, now, now, []⟩
  let s1 : Manager :=
    { s with
      active_connections := aset s.active_connections connection_id websocket,
      connection_info := aset s.connection_info connection_id info,
      user_connections := dAdd s.user_connections user_id connection_id,
      tenant_connections := dAdd s.tenant_connections tenant_id connection_id }
  let s2 := (send_to_connection s1 connection_id
    ⟨MsgType.connect,
      [("connection_id", connection_id), ("user_id", toString user_id),
       ("tenant_id", tenant_id), ("status", "connected")]⟩).1
  (s2, connection_id)

/-- asyncio.create_task(self._redis_subscription_handler(channel)): records a
fresh running task under the channel name. -/
def spawn_redis_task (s : Manager) (channel : String) : Manager :=
  { s with redis_tasks := aset s.redis_tasks channel ⟨s.next_task_id, false⟩,
           next_task_id := s.next_task_id + 1 }

/-- WebSocketConnectionManager._ensure_redis_subscription: spawn a listener
task only when none is recorded for the channel or the recorded one is done. -/
def ensure_redis_subscription (s : Manager) (channel : String) : Manager :=
  match alookup s.redis_tasks channel with
  | some t => if t.done then spawn_redis_task s channel else s
  | none => spawn_redis_task s channel

/-- WebSocketConnectionManager._stop_redis_subscription: cancel and drop the
channel's listener task when one is recorded. -/
def stop_redis_subscription (s : Manager) (channel : String) : Manager :=
  if hasKey s.redis_tasks channel then
    { s with redis_tasks := aerase s.redis_tasks channel }
  else s

/-- WebSocketConnectionManager.subscribe_to_channel: unknown id returns false;
otherwise adds the id to the channel index, appends the channel to the
connection's subscription list (no duplicate check), ensures the Redis
listener, and sends the subscribe acknowledgement. -/
def subscribe_to_channel (s : Manager) (connection_id channel : String) :
    Manager × Bool :=
  match alookup s.connection_info connection_id with
  | none => (s, false)
  | some info =>
    let info1 := { info with subscriptions := info.subscriptions ++ [channel] }
    let s1 : Manager :=
      { s with
        channel_subscriptions := dAdd s.channel_subscriptions channel connection_id,
        connection_info := aset s.connection_info connection_id info1 }
    let s2 := ensure_redis_subscription s1 channel
    let s3 := (send_to_connection s2 connection_id
      ⟨MsgType.ack,
        [("action", "subscribe"), ("channel", channel), ("status", "success")]⟩).1
    (s3, true)

/-- WebSocketConnectionManager.unsubscribe_from_channel: unknown id returns
false; otherwise discards the id from the channel index, removes one
occurrence of the channel from the subscription list, and when the channel
index entry became empty stops the Redis listener and deletes the entry,
then sends the unsubscribe acknowledgement. -/
def unsubscribe_from_channel (s : Manager) (connection_id channel : String) :
    Manager × Bool :=
  match alookup s.connection_info connection_id with
  | none => (s, false)
  | some info =>
    let info1 := { info with subscriptions :=
      if channel ∈ info.subscriptions then serase info.subscriptions channel
      else info.subscriptions }
    let s1 : Manager :=
      { s with
        channel_subscriptions := dDiscard s.channel_subscriptions channel connection_id,
        connection_info := aset s.connection_info connection_id info1 }
    let s2 :=
      if (dGet s1.channel_subscriptions channel).isEmpty then
        let sa := stop_redis_subscription s1 channel
        { sa with channel_subscriptions := aerase sa.channel_subscriptions channel }
      else s1
    let s3 := (send_to_connection s2 connection_id
      ⟨MsgType.ack,
        [("action", "unsubscribe"), ("channel", channel), ("status", "success")]⟩).1
    (s3, true)

/-- One step of a fan-out loop body: `await self._send_to_connection(...)`. -/
def fanout_step (message : WSMessage) (s : Manager) (connection_id : String) : Manager :=
  (send_to_connection s connection_id message).1

/-- WebSocketConnectionManager.send_to_user: snapshot the user's connection
ids (`.copy()`), wrap the notification, deliver to each id in turn. -/
def send_to_user (s : Manager) (user_id : Nat) (notification : MsgData) : Manager :=
  let connection_ids := (alookup s.user_connections user_id).getD []
  connection_ids.foldl (fanout_step ⟨MsgType.notification, notification⟩) s

/-- WebSocketConnectionManager.send_to_tenant. -/
def send_to_tenant (s : Manager) (tenant_id : String) (notification : MsgData) : Manager :=
  let connection_ids := (alookup s.tenant_connections tenant_id).getD []
  connection_ids.foldl (fanout_step ⟨MsgType.notification, notification⟩) s

/-- WebSocketConnectionManager.send_to_channel. -/
def send_to_channel (s : Manager) (channel : String) (notification : MsgData) : Manager :=
  let connection_ids := (alookup s.channel_subscriptions channel).getD []
  connection_ids.foldl (fanout_step ⟨MsgType.notification, notification⟩) s

/-- WebSocketConnectionManager._handle_heartbeat: refresh last_heartbeat and
send the liveness reply. -/
def handle_heartbeat (s : Manager) (connection_id : String) (now : Nat) : Manager :=
  match alookup s.connection_info connection_id with
  | none => s
  | some info =>
    let info1 := { info with last_heartbeat := now }
    let s1 : Manager :=
      { s with connection_info := aset s.connection_info connection_id info1 }
    (send_to_connection s1 connection_id
      ⟨MsgType.heartbeat, [("status", "alive")]⟩).1

/-- A client frame after JSON decoding, as handle_message sees it: either a
pydantic-valid WebSocketMessage (its type, and the channel field of its data
dict if present and non-empty), or one whose validation raises. -/
inductive RawFrame where
  | valid (type : MsgType) (channel : Option String)
  | invalid
deriving DecidableEq, Repr

/-- WebSocketConnectionManager.handle_message: dispatch subscribe,
unsubscribe and heartbeat frames; a frame with a missing channel field or an
unhandled type is silently ignored; a validation failure is answered with a
message_error frame. -/
def handle_message (s : Manager) (connection_id : String) (frame : RawFrame) (now : Nat) :
    Manager :=
  match frame with
  | RawFrame.invalid => send_error s connection_id "message_error" "validation error"
  | RawFrame.valid t ch =>
    match t, ch with
    | MsgType.subscribe, some channel => (subscribe_to_channel s connection_id channel).1
    | MsgType.unsubscribe, some channel =>
        (unsubscribe_from_channel s connection_id channel).1
    | MsgType.heartbeat, _ => handle_heartbeat s connection_id now
    | _, _ => s

/-- One iteration of the endpoint's receive loop (src/app/api/v1/websocket.py)
on one inbound text frame: `none` models a json.JSONDecodeError, answered
with an invalid_json error frame; a decoded frame goes to handle_message. -/
def endpoint_handle_frame (s : Manager) (connection_id : String)
    (frame : Option RawFrame) (now : Nat) : Manager :=
  match frame with
  | none => send_error s connection_id "invalid_json" "Invalid JSON format"
  | some f => handle_message s connection_id f now

/-- The eviction loop of one heartbeat-monitor scan.  The source wraps the
whole scan in one try/except, so the first eviction whose disconnect raises
(modelled by the `raises` oracle on the awaited disconnect call) aborts the
remaining evictions of that scan; the exception is caught at the scan
boundary and the monitor survives. -/
def evict_loop (raises : String → Bool) : Manager → List String → Manager
  | s, [] => s
  | s, cid :: rest =>
    if raises cid then s else evict_loop raises (disconnect s cid) rest

/-- One scan of WebSocketConnectionManager._heartbeat_monitor: collect the
connections whose last_heartbeat is older than now minus two minutes, then
run the eviction loop over them. -/
def heartbeat_scan (raises : String → Bool) (s : Manager) (now : Nat) : Manager :=
  let threshold := now - 120
  let timed_out := (s.connection_info.filter
    (fun p => decide (p.2.last_heartbeat < threshold))).map Prod.fst
  evict_loop raises s timed_out

/-- The endpoint's connection setup: manager.connect followed by the two
auto-subscriptions to the user notification channel and the tenant
broadcast channel (src/app/api/v1/websocket.py). -/
def connect_endpoint (s : Manager) (websocket : WebSocket) (user_id : Nat)
    (tenant_id : String) (uuid_suffix : String) (now : Nat) : Manager × String :=
  let r := connect s websocket user_id tenant_id uuid_suffix now
  let s1 := (subscribe_to_channel r.1 r.2
    ("user:" ++ toString user_id ++ ":notifications")).1
  let s2 := (subscribe_to_channel s1 r.2 "tenant:broadcast").1
  (s2, r.2)

/-- The public operations of the manager, as invocable by the endpoint and
by notification producers. -/
inductive Op where
  | conn (websocket : WebSocket) (user_id : Nat) (tenant_id : String)
      (uuid_suffix : String) (now : Nat)
  | disc (connection_id : String)
  | sub (connection_id channel : String)
  | unsub (connection_id channel : String)
  | msg (connection_id : String) (frame : RawFrame) (now : Nat)
deriving DecidableEq, Repr

/-- Apply one public operation to the manager state. -/
def applyOp (s : Manager) : Op → Manager
  | Op.conn ws uid tid sfx now => (connect s ws uid tid sfx now).1
  | Op.disc cid => disconnect s cid
  | Op.sub cid ch => (subscribe_to_channel s cid ch).1
  | Op.unsub cid ch => (unsubscribe_from_channel s cid ch).1
  | Op.msg cid f now => handle_message s cid f now

/-- Run a sequence of public operations. -/
def runOps (s : Manager) (ops : List Op) : Manager := ops.foldl applyOp s

def keysNodup {α β : Type} (l : List (α × β)) : Prop := (l.map Prod.fst).Nodup

/-- Operations reaching a state with one connection subscribed to the tenant
broadcast channel, with a running Redis listener task for it. -/
def c3ops : List Op := [Op.conn true 1 "t1" "a" 0, Op.sub "1_a" "tenant:broadcast"]

/-- A state whose channel has a running Redis listener task. -/
def s6state : Manager := ⟨[], [], [], [], [], [("ch", ⟨0, false⟩)], 1, []⟩

/-- Operations reaching a state with two registered connections (both with
last heartbeat at time 0). -/
def c7ops : List Op := [Op.conn true 1 "t1" "a" 0, Op.conn true 2 "t1" "b" 0]

/-- An eviction oracle under which disconnecting connection 1_a raises. -/
def raises7 : String → Bool := fun c => c == "1_a"

/-- A state already holding a registered connection 1_a owned by tenant t1. -/
def c8state : Manager :=
  ⟨[("1_a", true)], [("1_a", ⟨"1_a", 1, "t1", 0, 0, []⟩)], [(1, ["1_a"])],
   [("t1", ["1_a"])], [], [], 0, []⟩

/-- A state with one healthy registered connection 1_a. -/
def s9state : Manager := runOps initialManager [Op.conn true 1 "t1" "a" 0]

/-- The spec's fan-out scenario: three connections subscribed to
tenant:broadcast, the transport of 2_b always raises. -/
def c4state : Manager :=
  ⟨[("1_a", true), ("2_b", false), ("3_c", true)],
   [("1_a", ⟨"1_a", 1, "t1", 0, 0, ["tenant:broadcast"]⟩),
    ("2_b", ⟨"2_b", 2, "t1", 0, 0, ["tenant:broadcast"]⟩),
    ("3_c", ⟨"3_c", 3, "t1", 0, 0, ["tenant:broadcast"]⟩)],
   [(1, ["1_a"]), (2, ["2_b"]), (3, ["3_c"])],
   [("t1", ["1_a", "2_b", "3_c"])],
   [("tenant:broadcast", ["1_a", "2_b", "3_c"])],
   [("tenant:broadcast", ⟨0, false⟩)], 1, []⟩

/-- The endpoint-level operations the C2 claim quantifies over: connect
(with its two auto-subscriptions) and disconnect. -/
inductive Op2 where
  | conn (websocket : WebSocket) (user_id : Nat) (tenant_id : String)
      (uuid_suffix : String) (now : Nat)
  | disc (connection_id : String)
deriving DecidableEq, Repr

/-- Apply one connect/disconnect operation. -/
def applyOp2 (s : Manager) : Op2 → Manager
  | Op2.conn ws uid tid sfx now => (connect_endpoint s ws uid tid sfx now).1
  | Op2.disc cid => disconnect s cid

/-- Every user-index entry and every tenant-index entry maps to a non-empty
set. -/
def entriesNonempty (s : Manager) : Prop :=
  (∀ p ∈ s.user_connections, p.2 ≠ []) ∧ (∀ p ∈ s.tenant_connections, p.2 ≠ [])

/-- A connect (with auto-subscriptions) followed by its disconnect. -/
def c2ops : List Op2 := [Op2.conn true 1 "t1" "a" 0, Op2.disc "1_a"]

/-- Guard for the amended C1 invariant: a subscribe call never targets a
channel already present in the connection's subscription list (the
subscription list is a Python list, appended to without a duplicate
check). -/
def subGuard (s : Manager) (connection_id channel : String) : Bool :=
  match alookup s.connection_info connection_id with
  | some i => decide (channel ∉ i.subscriptions)
  | none => true

/-- Guard for the amended C1 invariant: connect ids are fresh (as the uuid
suffix is meant to ensure) and no duplicate subscription is requested,
directly or through an inbound subscribe frame. -/
def okOp (s : Manager) : Op → Bool
  | Op.conn _ uid _ sfx _ => !(hasKey s.active_connections (toString uid ++ "_" ++ sfx))
  | Op.sub cid ch => subGuard s cid ch
  | Op.msg cid (RawFrame.valid MsgType.subscribe (some ch)) _ => subGuard s cid ch
  | _ => true

/-- States reachable from the initial manager by guarded public operations. -/
inductive ReachableG : Manager → Prop where
  | init : ReachableG initialManager
  | step (s : Manager) (op : Op) : ReachableG s → okOp s op = true →
      ReachableG (applyOp s op)

/-- The registry invariant: active_connections and connection_info share
their key set, subscription lists and all index sets are duplicate-free,
membership in each index set characterises ownership, and the user and
tenant indices have duplicate-free key lists. -/
structure RegInv (s : Manager) : Prop where
  ai : ∀ cid, hasKey s.active_connections cid = hasKey s.connection_info cid
  sn : ∀ cid i, alookup s.connection_info cid = some i → i.subscriptions.Nodup
  un : ∀ x, (dGet s.user_connections x).Nodup
  tn : ∀ x, (dGet s.tenant_connections x).Nodup
  cn : ∀ x, (dGet s.channel_subscriptions x).Nodup
  iu : ∀ x cid, cid ∈ dGet s.user_connections x ↔
        ∃ i, alookup s.connection_info cid = some i ∧ i.user_id = x
  it : ∀ x cid, cid ∈ dGet s.tenant_connections x ↔
        ∃ i, alookup s.connection_info cid = some i ∧ i.tenant_id = x
  ic : ∀ x cid, cid ∈ dGet s.channel_subscriptions x ↔
        ∃ i, alookup s.connection_info cid = some i ∧ x ∈ i.subscriptions
  uk : keysNodup s.user_connections
  tk : keysNodup s.tenant_connections

/-- Operations that break the unrestricted claim: subscribe to chX twice,
then unsubscribe once. -/
def c1ops : List Op := [Op.conn true 1 "t1" "a" 0, Op.sub "1_a" "chX",
  Op.sub "1_a" "chX", Op.unsub "1_a" "chX"]

/-! ### Lemmas and claim theorems -/


/-! ### Association list and set lemmas -/

theorem alookup_aset_self {α β : Type} [DecidableEq α] (l : List (α × β)) (k : α) (v : β) :
    alookup (aset l k v) k = some v := by
  induction l with
  | nil => simp [aset, alookup]
  | cons p rest ih =>
    obtain ⟨k', v'⟩ := p
    by_cases h : k = k'
    · subst h; simp [aset, alookup]
    · simp [aset, alookup, h, ih]

theorem alookup_aset_ne {α β : Type} [DecidableEq α] (l : List (α × β)) (k : α) (v : β)
    (k'' : α) (h : k'' ≠ k) : alookup (aset l k v) k'' = alookup l k'' := by
  induction l with
  | nil => simp [aset, alookup, h]
  | cons p rest ih =>
    obtain ⟨k', v'⟩ := p
    by_cases h1 : k = k'
    · subst h1; simp [aset, alookup, h]
    · by_cases h2 : k'' = k'
      · subst h2; simp [aset, alookup, h1]
      · simp [aset, alookup, h1, h2, ih]

theorem aerase_cons {α β : Type} [DecidableEq α] (k' : α) (v' : β) (rest : List (α × β))
    (k : α) : aerase ((k', v') :: rest) k =
      if k' = k then aerase rest k else (k', v') :: aerase rest k := by
  by_cases h : k' = k
  · simp [aerase, h]
  · simp [aerase, h]

theorem alookup_aerase_self {α β : Type} [DecidableEq α] (l : List (α × β)) (k : α) :
    alookup (aerase l k) k = none := by
  induction l with
  | nil => rfl
  | cons p rest ih =>
    obtain ⟨k', v'⟩ := p
    rw [aerase_cons]
    by_cases h : k' = k
    · rw [if_pos h]; exact ih
    · rw [if_neg h]
      simp only [alookup]
      rw [if_neg (fun hh : k = k' => h hh.symm)]
      exact ih

theorem alookup_aerase_ne {α β : Type} [DecidableEq α] (l : List (α × β)) (k k'' : α)
    (h : k'' ≠ k) : alookup (aerase l k) k'' = alookup l k'' := by
  induction l with
  | nil => rfl
  | cons p rest ih =>
    obtain ⟨k', v'⟩ := p
    rw [aerase_cons]
    by_cases h1 : k' = k
    · rw [if_pos h1]
      simp only [alookup]
      rw [if_neg (fun hh : k'' = k' => h (hh.trans h1))]
      exact ih
    · rw [if_neg h1]
      simp only [alookup]
      by_cases h2 : k'' = k'
      · rw [if_pos h2, if_pos h2]
      · rw [if_neg h2, if_neg h2]
        exact ih

theorem hasKey_aset {α β : Type} [DecidableEq α] (l : List (α × β)) (k : α) (v : β)
    (k'' : α) : hasKey (aset l k v) k'' = if k'' = k then true else hasKey l k'' := by
  by_cases h : k'' = k
  · subst h; simp [hasKey, alookup_aset_self]
  · simp [hasKey, h, alookup_aset_ne l k v k'' h]

theorem hasKey_aerase {α β : Type} [DecidableEq α] (l : List (α × β)) (k k'' : α) :
    hasKey (aerase l k) k'' = if k'' = k then false else hasKey l k'' := by
  by_cases h : k'' = k
  · subst h; simp [hasKey, alookup_aerase_self]
  · simp [hasKey, h, alookup_aerase_ne l k k'' h]

theorem dGet_aset_self {α : Type} [DecidableEq α] (d : List (α × List String)) (k : α)
    (v : List String) : dGet (aset d k v) k = v := by
  simp [dGet, alookup_aset_self]

theorem dGet_aset_ne {α : Type} [DecidableEq α] (d : List (α × List String)) (k : α)
    (v : List String) (k'' : α) (h : k'' ≠ k) : dGet (aset d k v) k'' = dGet d k'' := by
  simp [dGet, alookup_aset_ne d k v k'' h]

theorem dGet_dAdd_self {α : Type} [DecidableEq α] (d : List (α × List String)) (k : α)
    (x : String) : dGet (dAdd d k x) k = sinsert (dGet d k) x := by
  simp [dAdd, dGet_aset_self]

theorem dGet_dAdd_ne {α : Type} [DecidableEq α] (d : List (α × List String)) (k : α)
    (x : String) (k'' : α) (h : k'' ≠ k) : dGet (dAdd d k x) k'' = dGet d k'' := by
  simp [dAdd, dGet_aset_ne _ _ _ _ h]

theorem dGet_dDiscard_self {α : Type} [DecidableEq α] (d : List (α × List String)) (k : α)
    (x : String) : dGet (dDiscard d k x) k = serase (dGet d k) x := by
  simp [dDiscard, dGet_aset_self]

theorem dGet_dDiscard_ne {α : Type} [DecidableEq α] (d : List (α × List String)) (k : α)
    (x : String) (k'' : α) (h : k'' ≠ k) : dGet (dDiscard d k x) k'' = dGet d k'' := by
  simp [dDiscard, dGet_aset_ne _ _ _ _ h]

theorem dGet_aerase_self {α : Type} [DecidableEq α] (d : List (α × List String)) (k : α) :
    dGet (aerase d k) k = [] := by
  simp [dGet, alookup_aerase_self]

theorem dGet_aerase_ne {α : Type} [DecidableEq α] (d : List (α × List String)) (k k'' : α)
    (h : k'' ≠ k) : dGet (aerase d k) k'' = dGet d k'' := by
  simp [dGet, alookup_aerase_ne d k k'' h]

theorem dGet_prune {α : Type} [DecidableEq α] (d : List (α × List String)) (k k'' : α) :
    dGet (prune d k) k'' = dGet d k'' := by
  unfold prune
  by_cases he : (dGet d k).isEmpty
  · by_cases h : k'' = k
    · subst h
      rw [if_pos he, dGet_aerase_self, List.isEmpty_iff.mp he]
    · rw [if_pos he, dGet_aerase_ne d k k'' h]
  · rw [if_neg he]

theorem mem_sinsert (l : List String) (x y : String) :
    y ∈ sinsert l x ↔ y ∈ l ∨ y = x := by
  unfold sinsert
  by_cases h : x ∈ l
  · simp only [if_pos h]
    constructor
    · exact Or.inl
    · rintro (hy | rfl)
      · exact hy
      · exact h
  · simp [if_neg h]

theorem sinsert_nodup (l : List String) (x : String) (h : l.Nodup) :
    (sinsert l x).Nodup := by
  unfold sinsert
  by_cases hx : x ∈ l
  · simpa [hx]
  · simp only [if_neg hx]
    simpa [List.nodup_append] using ⟨h, hx⟩

theorem sinsert_ne_nil (l : List String) (x : String) : sinsert l x ≠ [] := by
  unfold sinsert
  by_cases hx : x ∈ l
  · rw [if_pos hx]
    rintro rfl
    exact List.not_mem_nil x hx
  · rw [if_neg hx]
    simp

theorem mem_serase_of_ne (l : List String) (x y : String) (h : y ≠ x) :
    y ∈ serase l x ↔ y ∈ l := by
  induction l with
  | nil => simp [serase]
  | cons z rest ih =>
    by_cases hz : z = x
    · subst hz; simp [serase, h, Ne.symm h]
    · simp [serase, hz, ih]

theorem not_mem_serase (l : List String) (x : String) (h : l.Nodup) :
    x ∉ serase l x := by
  induction l with
  | nil => simp [serase]
  | cons z rest ih =>
    rw [List.nodup_cons] at h
    by_cases hz : z = x
    · subst hz; simpa [serase] using h.1
    · simp only [serase, if_neg hz, List.mem_cons]
      rintro (rfl | hmem)
      · exact hz rfl
      · exact ih h.2 hmem

theorem serase_nodup (l : List String) (x : String) (h : l.Nodup) :
    (serase l x).Nodup := by
  induction l with
  | nil => simp [serase]
  | cons z rest ih =>
    rw [List.nodup_cons] at h
    by_cases hz : z = x
    · subst hz; simpa [serase] using h.2
    · rw [serase, if_neg hz, List.nodup_cons]
      refine ⟨fun hmem => ?_, ih h.2⟩
      by_cases hzx : z = x
      · exact hz hzx
      · exact h.1 ((mem_serase_of_ne rest x z hz).mp hmem)

theorem serase_of_not_mem (l : List String) (x : String) (h : x ∉ l) :
    serase l x = l := by
  induction l with
  | nil => simp [serase]
  | cons z rest ih =>
    simp only [List.mem_cons, not_or] at h
    rw [serase, if_neg (fun hz => h.1 hz.symm), ih h.2]

theorem serase_append_singleton (l : List String) (x : String) (h : x ∉ l) :
    serase (l ++ [x]) x = l := by
  induction l with
  | nil => simp [serase]
  | cons z rest ih =>
    simp only [List.mem_cons, not_or] at h
    rw [List.cons_append, serase, if_neg (fun hz => h.1 hz.symm), ih h.2]

theorem mem_aset {α β : Type} [DecidableEq α] (l : List (α × β)) (k : α) (v : β)
    (p : α × β) (h : p ∈ aset l k v) : p ∈ l ∨ p = (k, v) := by
  induction l with
  | nil =>
    simp only [aset, List.mem_singleton] at h
    exact Or.inr h
  | cons q rest ih =>
    obtain ⟨k', v'⟩ := q
    by_cases hk : k = k'
    · simp only [aset, if_pos hk, List.mem_cons] at h
      rcases h with h | h
      · exact Or.inr h
      · exact Or.inl (List.mem_cons_of_mem _ h)
    · simp only [aset, if_neg hk, List.mem_cons] at h
      rcases h with h | h
      · exact Or.inl (by rw [h]; exact List.mem_cons_self _ _)
      · rcases ih h with h2 | h2
        · exact Or.inl (List.mem_cons_of_mem _ h2)
        · exact Or.inr h2

theorem mem_aerase {α β : Type} [DecidableEq α] (l : List (α × β)) (k : α)
    (p : α × β) (h : p ∈ aerase l k) : p ∈ l := by
  exact List.mem_of_mem_filter h

/-! ### Orientation lemmas about the manager operations -/

theorem hasKey_false_lookup {α β : Type} [DecidableEq α] (l : List (α × β)) (k : α)
    (h : hasKey l k = false) : alookup l k = none := by
  unfold hasKey at h
  cases hl : alookup l k with
  | none => rfl
  | some v => rw [hl] at h; cases h

theorem hasKey_true_lookup {α β : Type} [DecidableEq α] (l : List (α × β)) (k : α)
    (h : hasKey l k = true) : ∃ v, alookup l k = some v := by
  unfold hasKey at h
  cases hl : alookup l k with
  | none => rw [hl] at h; cases h
  | some v => exact ⟨v, rfl⟩

theorem sinsert_of_not_mem (l : List String) (x : String) (h : x ∉ l) :
    sinsert l x = l ++ [x] := by
  rw [sinsert, if_neg h]

theorem nodup_append_singleton (l : List String) (x : String) (h : l.Nodup) (hx : x ∉ l) :
    (l ++ [x]).Nodup := by
  simpa [List.nodup_append] using ⟨h, hx⟩

theorem disconnect_active_lookup (s : Manager) (cid x : String) :
    alookup (disconnect s cid).active_connections x =
      if x = cid then none else alookup s.active_connections x := by
  by_cases h : hasKey s.active_connections cid = true
  · rw [disconnect, if_pos h]
    cases hinfo : alookup s.connection_info cid with
    | none =>
      by_cases hx : x = cid
      · simp [hinfo, hx, alookup_aerase_self]
      · simp [hinfo, hx, alookup_aerase_ne _ _ _ hx]
    | some info =>
      by_cases hx : x = cid
      · simp [hinfo, hx, alookup_aerase_self]
      · simp [hinfo, hx, alookup_aerase_ne _ _ _ hx]
  · rw [disconnect, if_neg h]
    by_cases hx : x = cid
    · subst hx
      rw [if_pos rfl]
      exact (hasKey_false_lookup _ _ (by simpa using h)).symm ▸ rfl
    · rw [if_neg hx]

theorem disconnect_info_lookup (s : Manager) (cid x : String)
    (hai : hasKey s.active_connections cid = hasKey s.connection_info cid) :
    alookup (disconnect s cid).connection_info x =
      if x = cid then none else alookup s.connection_info x := by
  by_cases h : hasKey s.active_connections cid = true
  · rw [disconnect, if_pos h]
    cases hinfo : alookup s.connection_info cid with
    | none =>
      by_cases hx : x = cid
      · simp [hinfo, hx, alookup_aerase_self]
      · simp [hinfo, hx, alookup_aerase_ne _ _ _ hx]
    | some info =>
      by_cases hx : x = cid
      · simp [hinfo, hx, alookup_aerase_self]
      · simp [hinfo, hx, alookup_aerase_ne _ _ _ hx]
  · rw [disconnect, if_neg h]
    by_cases hx : x = cid
    · subst hx
      rw [if_pos rfl]
      cases hb : hasKey s.active_connections x with
      | true => exact absurd hb h
      | false =>
        rw [hb] at hai
        exact hasKey_false_lookup _ _ hai.symm
    · rw [if_neg hx]

theorem disconnect_sent (s : Manager) (cid : String) :
    (disconnect s cid).sent = s.sent := by
  by_cases h : hasKey s.active_connections cid = true
  · rw [disconnect, if_pos h]
    cases hinfo : alookup s.connection_info cid <;> simp [hinfo]
  · rw [disconnect, if_neg h]

theorem disconnect_redis (s : Manager) (cid : String) :
    (disconnect s cid).redis_tasks = s.redis_tasks := by
  by_cases h : hasKey s.active_connections cid = true
  · rw [disconnect, if_pos h]
    cases hinfo : alookup s.connection_info cid <;> simp [hinfo]
  · rw [disconnect, if_neg h]

theorem send_lookup_none (s : Manager) (cid : String) (m : WSMessage)
    (h : alookup s.active_connections cid = none) :
    (send_to_connection s cid m).1 = s := by
  rw [send_to_connection, h]

theorem send_lookup_true (s : Manager) (cid : String) (m : WSMessage)
    (h : alookup s.active_connections cid = some true) :
    (send_to_connection s cid m).1 = { s with sent := s.sent ++ [(cid, m)] } := by
  rw [send_to_connection, h]
  rfl

theorem send_lookup_false (s : Manager) (cid : String) (m : WSMessage)
    (h : alookup s.active_connections cid = some false) :
    (send_to_connection s cid m).1 = disconnect s cid := by
  rw [send_to_connection, h]
  rfl

theorem fanout_active_not_mem (m : WSMessage) (l : List String) (st : Manager) (x : String)
    (hx : x ∉ l) :
    alookup (l.foldl (fanout_step m) st).active_connections x
      = alookup st.active_connections x := by
  induction l generalizing st with
  | nil => rfl
  | cons c rest ih =>
    simp only [List.mem_cons, not_or] at hx
    rw [List.foldl_cons, ih _ hx.2]
    unfold fanout_step
    cases halo : alookup st.active_connections c with
    | none => rw [send_lookup_none st c m halo]
    | some ws =>
      cases ws with
      | true => rw [send_lookup_true st c m halo]
      | false =>
        rw [send_lookup_false st c m halo, disconnect_active_lookup, if_neg hx.1]

theorem fanout_sent_mono (m : WSMessage) (l : List String) (st : Manager)
    (x : String × WSMessage) (hx : x ∈ st.sent) :
    x ∈ (l.foldl (fanout_step m) st).sent := by
  induction l generalizing st with
  | nil => exact hx
  | cons c rest ih =>
    rw [List.foldl_cons]
    apply ih
    unfold fanout_step
    cases halo : alookup st.active_connections c with
    | none => rw [send_lookup_none st c m halo]; exact hx
    | some ws =>
      cases ws with
      | true =>
        rw [send_lookup_true st c m halo]
        exact List.mem_append_left _ hx
      | false =>
        rw [send_lookup_false st c m halo, disconnect_sent]
        exact hx

theorem fanout_main (m : WSMessage) (l : List String) :
    ∀ (st : Manager), l.Nodup → ∀ x ∈ l,
      (alookup st.active_connections x = some true →
        (x, m) ∈ (l.foldl (fanout_step m) st).sent ∧
        alookup (l.foldl (fanout_step m) st).active_connections x = some true) ∧
      (alookup st.active_connections x = some false →
        alookup (l.foldl (fanout_step m) st).active_connections x = none) := by
  induction l with
  | nil => intro st _ x hx; exact absurd hx (List.not_mem_nil x)
  | cons c rest ih =>
    intro st hnd x hx
    have hc : c ∉ rest := (List.nodup_cons.mp hnd).1
    have hndr : rest.Nodup := (List.nodup_cons.mp hnd).2
    rw [List.foldl_cons]
    rcases List.mem_cons.mp hx with hxc | hxr
    · subst hxc
      constructor
      · intro htrue
        rw [fanout_step, send_lookup_true st x m htrue]
        constructor
        · exact fanout_sent_mono m rest _ (x, m) (List.mem_append_right _ (by simp))
        · rw [fanout_active_not_mem m rest _ x hc]
          exact htrue
      · intro hfalse
        rw [fanout_step, send_lookup_false st x m hfalse]
        rw [fanout_active_not_mem m rest _ x hc, disconnect_active_lookup, if_pos rfl]
    · have hx_ne : x ≠ c := fun he => hc (he ▸ hxr)
      have hpres : alookup (fanout_step m st c).active_connections x
          = alookup st.active_connections x := by
        unfold fanout_step
        cases halo : alookup st.active_connections c with
        | none => rw [send_lookup_none st c m halo]
        | some ws =>
          cases ws with
          | true => rw [send_lookup_true st c m halo]
          | false =>
            rw [send_lookup_false st c m halo, disconnect_active_lookup, if_neg hx_ne]
      constructor
      · intro htrue
        exact (ih (fanout_step m st c) hndr x hxr).1 (by rw [hpres]; exact htrue)
      · intro hfalse
        exact (ih (fanout_step m st c) hndr x hxr).2 (by rw [hpres]; exact hfalse)

theorem evict_loop_redis (raises : String → Bool) (l : List String) (s : Manager) :
    (evict_loop raises s l).redis_tasks = s.redis_tasks := by
  induction l generalizing s with
  | nil => rfl
  | cons cid rest ih =>
    rw [evict_loop]
    cases hr : raises cid with
    | true => rw [if_pos rfl]
    | false =>
      rw [if_neg (by simp)]
      rw [ih (disconnect s cid), disconnect_redis]

theorem heartbeat_scan_redis (raises : String → Bool) (s : Manager) (now : Nat) :
    (heartbeat_scan raises s now).redis_tasks = s.redis_tasks := by
  rw [heartbeat_scan]
  exact evict_loop_redis raises _ s

/-! ### Key-nodup and keyed-count helpers -/

theorem mem_keys_aset {α β : Type} [DecidableEq α] (l : List (α × β)) (k : α) (v : β)
    (x : α) (h : x ∈ (aset l k v).map Prod.fst) : x ∈ l.map Prod.fst ∨ x = k := by
  obtain ⟨p, hp, hpx⟩ := List.mem_map.mp h
  rcases mem_aset l k v p hp with h1 | h1
  · exact Or.inl (hpx ▸ List.mem_map_of_mem Prod.fst h1)
  · right; rw [← hpx, h1]

theorem keysNodup_aset {α β : Type} [DecidableEq α] (l : List (α × β)) (k : α) (v : β)
    (h : keysNodup l) : keysNodup (aset l k v) := by
  induction l with
  | nil => simp [aset, keysNodup]
  | cons p rest ih =>
    obtain ⟨k', v'⟩ := p
    unfold keysNodup at h ⊢
    rw [List.map_cons, List.nodup_cons] at h
    by_cases hk : k = k'
    · simp only [aset, if_pos hk, List.map_cons, List.nodup_cons]
      exact ⟨hk ▸ h.1, h.2⟩
    · simp only [aset, if_neg hk, List.map_cons, List.nodup_cons]
      refine ⟨fun hmem => ?_, ih h.2⟩
      rcases mem_keys_aset rest k v k' hmem with h1 | h1
      · exact h.1 h1
      · exact hk h1.symm

theorem keysNodup_aerase {α β : Type} [DecidableEq α] (l : List (α × β)) (k : α)
    (h : keysNodup l) : keysNodup (aerase l k) := by
  unfold keysNodup at h ⊢
  exact ((List.filter_sublist l).map Prod.fst).nodup h

theorem keysNodup_prune {α : Type} [DecidableEq α] (d : List (α × List String)) (k : α)
    (h : keysNodup d) : keysNodup (prune d k) := by
  unfold prune
  by_cases he : (dGet d k).isEmpty
  · rw [if_pos he]; exact keysNodup_aerase d k h
  · rw [if_neg he]; exact h

theorem alookup_eq_none_of_not_mem_keys {α β : Type} [DecidableEq α] (l : List (α × β))
    (k : α) (h : k ∉ l.map Prod.fst) : alookup l k = none := by
  induction l with
  | nil => rfl
  | cons p rest ih =>
    obtain ⟨k', v'⟩ := p
    rw [List.map_cons, List.mem_cons, not_or] at h
    simp only [alookup]
    rw [if_neg h.1]
    exact ih h.2

theorem alookup_eq_of_mem_nodup {α β : Type} [DecidableEq α] (l : List (α × β))
    (p : α × β) (hnd : keysNodup l) (hp : p ∈ l) : alookup l p.1 = some p.2 := by
  induction l with
  | nil => exact absurd hp (List.not_mem_nil p)
  | cons q rest ih =>
    obtain ⟨k', v'⟩ := q
    unfold keysNodup at hnd
    rw [List.map_cons, List.nodup_cons] at hnd
    rcases List.mem_cons.mp hp with h1 | h1
    · rw [h1]
      simp [alookup]
    · have hne : p.1 ≠ k' := by
        intro he
        apply hnd.1
        rw [← he]
        exact List.mem_map.mpr ⟨p, h1, rfl⟩
      simp only [alookup]
      rw [if_neg hne]
      exact ih hnd.2 h1

theorem countP_keyed {α : Type} [DecidableEq α] (cid : String) (u0 : α) :
    ∀ (d : List (α × List String)), keysNodup d →
      (∀ u, cid ∈ dGet d u ↔ u = u0) →
      d.countP (fun p => decide (cid ∈ p.2)) = 1 := by
  intro d
  induction d with
  | nil =>
    intro _ h
    exact absurd ((h u0).mpr rfl) (List.not_mem_nil cid)
  | cons p rest ih =>
    intro hnd h
    obtain ⟨k, v⟩ := p
    unfold keysNodup at hnd
    rw [List.map_cons, List.nodup_cons] at hnd
    have hdk : dGet ((k, v) :: rest) k = v := by simp [dGet, alookup]
    have hrest_of_ne : ∀ u, u ≠ k → dGet rest u = dGet ((k, v) :: rest) u := by
      intro u hu; simp [dGet, alookup, hu]
    by_cases hk : k = u0
    · have hin : cid ∈ v := by
        have := (h k).mpr hk
        rwa [hdk] at this
      rw [List.countP_cons_of_pos _ _ (by simpa using hin)]
      have hzero : rest.countP (fun p => decide (cid ∈ p.2)) = 0 := by
        rw [List.countP_eq_zero]
        intro q hq
        have hq1 : q.1 ≠ k := by
          intro he
          apply hnd.1
          rw [← he]
          exact List.mem_map.mpr ⟨q, hq, rfl⟩
        have hqv : alookup rest q.1 = some q.2 :=
          alookup_eq_of_mem_nodup rest q hnd.2 hq
        have hnot : cid ∉ dGet ((k, v) :: rest) q.1 := by
          intro hmem
          exact hq1 (((h q.1).mp hmem).trans hk.symm)
        rw [← hrest_of_ne q.1 hq1] at hnot
        rw [dGet, hqv] at hnot
        simpa using hnot
      rw [hzero]
    · have hnotin : cid ∉ v := by
        intro hin
        apply hk
        apply (h k).mp
        rw [hdk]
        exact hin
      rw [List.countP_cons_of_neg _ _ (by simpa using hnotin)]
      apply ih hnd.2
      intro u
      by_cases hu : u = k
      · subst hu
        constructor
        · intro hmem
          have hnil : alookup rest u = none :=
            alookup_eq_none_of_not_mem_keys rest u hnd.1
          rw [dGet, hnil] at hmem
          exact absurd hmem (List.not_mem_nil cid)
        · intro he
          exact absurd he hk
      · rw [hrest_of_ne u hu]
        exact h u

/-! ### Claim theorems: disconnect, bridge and scan behaviour -/

/-- Claim C5: for every connection id, calling disconnect twice in a row
produces exactly the same end state (registry, all three indices, bridge
tasks, transcript) as calling it once; the second call finds the id unknown
and changes no state. -/
theorem disconnect_idempotent (s : Manager) (connection_id : String) :
    disconnect (disconnect s connection_id) connection_id
      = disconnect s connection_id := by
  have h : hasKey (disconnect s connection_id).active_connections connection_id
      = false := by
    unfold hasKey
    rw [disconnect_active_lookup, if_pos rfl]
    rfl
  conv_lhs => rw [disconnect]
  rw [h]
  simp

/-- Claim C3 (amended): disconnect removes the connection from the registry,
but it never invokes the bridge's stop-subscription operation — the Redis
task table is left exactly as it was, even for channels whose index set
becomes empty — and one heartbeat-monitor scan, which evicts through this
same disconnect path, likewise leaves every bus listener task in place. -/
theorem disconnect_preserves_bridge_tasks (s : Manager) (connection_id : String)
    (raises : String → Bool) (now : Nat) :
    (disconnect s connection_id).redis_tasks = s.redis_tasks ∧
    hasKey (disconnect s connection_id).active_connections connection_id = false ∧
    (heartbeat_scan raises s now).redis_tasks = s.redis_tasks := by
  refine ⟨disconnect_redis s connection_id, ?_, heartbeat_scan_redis raises s now⟩
  unfold hasKey
  rw [disconnect_active_lookup, if_pos rfl]
  rfl

/-- Claim C3 counterexample: disconnecting the sole subscriber of
tenant:broadcast empties that channel's index set, yet the Redis listener
task for the channel is still recorded (and not done): disconnect did not
invoke the stop-subscription operation. -/
theorem disconnect_bridge_cex :
    dGet (disconnect (runOps initialManager c3ops) "1_a").channel_subscriptions
        "tenant:broadcast" = [] ∧
    alookup (disconnect (runOps initialManager c3ops) "1_a").redis_tasks
        "tenant:broadcast" = some ⟨0, false⟩ := by
  decide

/-- Claim C6: while a listener task for a channel is recorded and not done,
ensure-subscribed is a no-op — the state (hence the task table and the
spawn counter) is unchanged — and stays a no-op under any number of
repeated calls. -/
theorem ensure_subscribed_idempotent (s : Manager) (channel : String) (t : RTask)
    (hl : alookup s.redis_tasks channel = some t) (hd : t.done = false) :
    ensure_redis_subscription s channel = s ∧
    ∀ n : Nat, Nat.iterate (fun x => ensure_redis_subscription x channel) n s = s := by
  have h1 : ensure_redis_subscription s channel = s := by
    rw [ensure_redis_subscription, hl]
    simp [hd]
  refine ⟨h1, ?_⟩
  intro n
  induction n with
  | zero => rfl
  | succ n ih =>
    rw [Function.iterate_succ_apply, h1]
    exact ih

/-- Witness for C6: on a concrete state with a running listener for "ch",
one ensure-subscribed call and five repeated calls are both no-ops. -/
theorem ensure_subscribed_idempotent_witness :
    ensure_redis_subscription s6state "ch" = s6state ∧
    Nat.iterate (fun x => ensure_redis_subscription x "ch") 5 s6state = s6state := by
  have h := ensure_subscribed_idempotent s6state "ch" ⟨0, false⟩ (by decide) (by decide)
  exact ⟨h.1, h.2 5⟩

/-- Claim C7 (amended): in one heartbeat-monitor scan, the timed-out
connections strictly before the first one whose eviction raises are
disconnected, and the failing one and every one after it are left untouched:
the exception aborts the remainder of the scan (it is caught at the scan
boundary, so the monitor itself survives to the next scan). -/
theorem heartbeat_scan_abort_run (raises : String → Bool) (s : Manager)
    (pre : List String) (cid : String) (post : List String)
    (hpre : ∀ c ∈ pre, raises c = false) (hcid : raises cid = true) :
    evict_loop raises s (pre ++ cid :: post) = pre.foldl disconnect s := by
  induction pre generalizing s with
  | nil =>
    rw [List.nil_append, evict_loop, if_pos hcid]
    rfl
  | cons c rest ih =>
    have hc : raises c = false := hpre c (List.mem_cons_self _ _)
    rw [List.cons_append, evict_loop, if_neg (by simp [hc]), List.foldl_cons]
    exact ih (disconnect s c) (fun d hd => hpre d (List.mem_cons_of_mem _ hd))

/-- Claim C7 counterexample: at time 200 both connections are older than the
two-minute threshold, the eviction of 1_a raises, and the scan then leaves
2_b (and 1_a) registered: the failure aborted the eviction of the remaining
timed-out connections of that same scan, contradicting the claim. -/
theorem heartbeat_scan_abort_cex :
    alookup (runOps initialManager c7ops).connection_info "2_b"
        = some ⟨"2_b", 2, "t1", 0, 0, []⟩ ∧
    hasKey (heartbeat_scan raises7 (runOps initialManager c7ops) 200).active_connections
        "2_b" = true ∧
    hasKey (heartbeat_scan raises7 (runOps initialManager c7ops) 200).active_connections
        "1_a" = true := by
  decide

/-- Witness for C7 (amended): with eviction order 2_b then 1_a and the
eviction of 1_a raising, the loop performs exactly the eviction of 2_b. -/
theorem heartbeat_scan_abort_run_witness :
    evict_loop raises7 (runOps initialManager c7ops) (["2_b"] ++ "1_a" :: [])
      = ["2_b"].foldl disconnect (runOps initialManager c7ops) :=
  heartbeat_scan_abort_run raises7 (runOps initialManager c7ops) ["2_b"] "1_a" []
    (by decide) (by decide)

theorem disconnect_info_lookup_pos (s : Manager) (cid x : String)
    (hk : hasKey s.active_connections cid = true) :
    alookup (disconnect s cid).connection_info x =
      if x = cid then none else alookup s.connection_info x := by
  rw [disconnect, if_pos hk]
  cases hinfo : alookup s.connection_info cid with
  | none =>
    by_cases hx : x = cid
    · simp [hinfo, hx, alookup_aerase_self]
    · simp [hinfo, hx, alookup_aerase_ne _ _ _ hx]
  | some info =>
    by_cases hx : x = cid
    · simp [hinfo, hx, alookup_aerase_self]
    · simp [hinfo, hx, alookup_aerase_ne _ _ _ hx]

theorem disconnect_user_dGet (s : Manager) (cid : String) (i : ConnectionInfo)
    (hk : hasKey s.active_connections cid = true)
    (hi : alookup s.connection_info cid = some i) (u : Nat) :
    dGet (disconnect s cid).user_connections u
      = dGet (prune (dDiscard s.user_connections i.user_id cid) i.user_id) u := by
  rw [disconnect, if_pos hk, hi]

theorem disconnect_tenant_dGet (s : Manager) (cid : String) (i : ConnectionInfo)
    (hk : hasKey s.active_connections cid = true)
    (hi : alookup s.connection_info cid = some i) (t : String) :
    dGet (disconnect s cid).tenant_connections t
      = dGet (prune (dDiscard s.tenant_connections i.tenant_id cid) i.tenant_id) t := by
  rw [disconnect, if_pos hk, hi]

theorem disconnect_chsub_dGet (s : Manager) (cid : String) (i : ConnectionInfo)
    (hk : hasKey s.active_connections cid = true)
    (hi : alookup s.connection_info cid = some i) (ch : String) :
    dGet (disconnect s cid).channel_subscriptions ch
      = dGet (i.subscriptions.foldl (fun d c => dDiscard d c cid)
          s.channel_subscriptions) ch := by
  rw [disconnect, if_pos hk, hi]

/-! ### Claim theorems: connect, error handling and fan-out -/

/-- Claim C8 (amended): connect performs no duplicate-id check.  Registering
under a generated id — whether fresh or already present — is an unconditional
insert: afterwards the registry holds the new transport handle and the newly
constructed ConnectionInfo under that id, so a colliding registration
replaces the old one instead of being logged and rejected. -/
theorem connect_overwrite_semantics (s : Manager) (user_id : Nat) (tenant_id : String)
    (uuid_suffix : String) (now : Nat) :
    (connect s true user_id tenant_id uuid_suffix now).2
        = toString user_id ++ "_" ++ uuid_suffix ∧
    alookup (connect s true user_id tenant_id uuid_suffix now).1.connection_info
        (toString user_id ++ "_" ++ uuid_suffix)
      = some ⟨toString user_id ++ "_" ++ uuid_suffix, user_id, tenant_id, now, now, []⟩ ∧
    alookup (connect s true user_id tenant_id uuid_suffix now).1.active_connections
        (toString user_id ++ "_" ++ uuid_suffix) = some true := by
  refine ⟨rfl, ?_, ?_⟩ <;>
    simp [connect, send_to_connection, alookup_aset_self]

/-- Claim C8 counterexample: invoking the registration step of connect while
the generated id 1_a is already registered does not reject the insert as a
no-op: the previously stored ConnectionInfo (tenant t1, timestamps 0) is
replaced by the new registration (tenant t2, timestamps 5), and the id ends
up indexed under both tenants. -/
theorem duplicate_id_overwrite_cex :
    alookup c8state.connection_info "1_a" = some ⟨"1_a", 1, "t1", 0, 0, []⟩ ∧
    alookup (connect c8state true 1 "t2" "a" 5).1.connection_info "1_a"
        = some ⟨"1_a", 1, "t2", 5, 5, []⟩ ∧
    "1_a" ∈ dGet (connect c8state true 1 "t2" "a" 5).1.tenant_connections "t1" ∧
    "1_a" ∈ dGet (connect c8state true 1 "t2" "a" 5).1.tenant_connections "t2" := by
  decide

/-- Claim C9: a frame that fails JSON decoding is answered with exactly one
error frame carrying code invalid_json to the originating connection (whose
transport is healthy); the connection is not disconnected and the registry,
every index and the bridge task table are unchanged. -/
theorem invalid_json_keeps_connection (s : Manager) (connection_id : String) (now : Nat)
    (h : alookup s.active_connections connection_id = some true) :
    (endpoint_handle_frame s connection_id none now).sent
        = s.sent ++ [(connection_id,
            (⟨MsgType.error,
              [("error_code", "invalid_json"),
               ("message", "Invalid JSON format")]⟩ : WSMessage))] ∧
    (endpoint_handle_frame s connection_id none now).active_connections
        = s.active_connections ∧
    (endpoint_handle_frame s connection_id none now).connection_info
        = s.connection_info ∧
    (endpoint_handle_frame s connection_id none now).user_connections
        = s.user_connections ∧
    (endpoint_handle_frame s connection_id none now).tenant_connections
        = s.tenant_connections ∧
    (endpoint_handle_frame s connection_id none now).channel_subscriptions
        = s.channel_subscriptions ∧
    (endpoint_handle_frame s connection_id none now).redis_tasks = s.redis_tasks := by
  have hred : endpoint_handle_frame s connection_id none now
      = (send_to_connection s connection_id
          ⟨MsgType.error,
           [("error_code", "invalid_json"), ("message", "Invalid JSON format")]⟩).1 := rfl
  rw [hred, send_lookup_true _ _ _ h]
  exact ⟨rfl, rfl, rfl, rfl, rfl, rfl, rfl⟩

/-- Witness for C9: a malformed frame from connection 1_a yields exactly one
invalid_json error frame and leaves all registry state unchanged. -/
theorem invalid_json_keeps_connection_witness :
    (endpoint_handle_frame s9state "1_a" none 7).sent
        = s9state.sent ++ [("1_a",
            (⟨MsgType.error,
              [("error_code", "invalid_json"),
               ("message", "Invalid JSON format")]⟩ : WSMessage))] ∧
    (endpoint_handle_frame s9state "1_a" none 7).active_connections
        = s9state.active_connections ∧
    (endpoint_handle_frame s9state "1_a" none 7).connection_info
        = s9state.connection_info ∧
    (endpoint_handle_frame s9state "1_a" none 7).user_connections
        = s9state.user_connections ∧
    (endpoint_handle_frame s9state "1_a" none 7).tenant_connections
        = s9state.tenant_connections ∧
    (endpoint_handle_frame s9state "1_a" none 7).channel_subscriptions
        = s9state.channel_subscriptions ∧
    (endpoint_handle_frame s9state "1_a" none 7).redis_tasks = s9state.redis_tasks :=
  invalid_json_keeps_connection s9state "1_a" 7 (by decide)

/-- Claim C10: when the transport send of the CONNECT acknowledgement raises,
connect tears the fresh connection down — the generated id is absent from
active_connections, from connection_info and from every user, tenant and
channel index set — and yet connect still returns that id to its caller
without raising. -/
theorem connect_ack_failure_ghost_id (s : Manager) (user_id : Nat) (tenant_id : String)
    (uuid_suffix : String) (now : Nat)
    (hu : ∀ u, (toString user_id ++ "_" ++ uuid_suffix) ∉ dGet s.user_connections u)
    (ht : ∀ t, (toString user_id ++ "_" ++ uuid_suffix) ∉ dGet s.tenant_connections t)
    (hc : ∀ ch, (toString user_id ++ "_" ++ uuid_suffix)
        ∉ dGet s.channel_subscriptions ch) :
    (connect s false user_id tenant_id uuid_suffix now).2
        = toString user_id ++ "_" ++ uuid_suffix ∧
    alookup (connect s false user_id tenant_id uuid_suffix now).1.active_connections
        (toString user_id ++ "_" ++ uuid_suffix) = none ∧
    alookup (connect s false user_id tenant_id uuid_suffix now).1.connection_info
        (toString user_id ++ "_" ++ uuid_suffix) = none ∧
    (∀ u, (toString user_id ++ "_" ++ uuid_suffix)
        ∉ dGet (connect s false user_id tenant_id uuid_suffix now).1.user_connections u) ∧
    (∀ t, (toString user_id ++ "_" ++ uuid_suffix)
        ∉ dGet (connect s false user_id tenant_id uuid_suffix now).1.tenant_connections
            t) ∧
    (∀ ch, (toString user_id ++ "_" ++ uuid_suffix)
        ∉ dGet (connect s false user_id tenant_id uuid_suffix
            now).1.channel_subscriptions ch) := by
  have hred : (connect s false user_id tenant_id uuid_suffix now).1
      = disconnect
          { s with
            active_connections := aset s.active_connections
              (toString user_id ++ "_" ++ uuid_suffix) false,
            connection_info := aset s.connection_info
              (toString user_id ++ "_" ++ uuid_suffix)
              ⟨toString user_id ++ "_" ++ uuid_suffix, user_id, tenant_id, now, now, []⟩,
            user_connections := dAdd s.user_connections user_id
              (toString user_id ++ "_" ++ uuid_suffix),
            tenant_connections := dAdd s.tenant_connections tenant_id
              (toString user_id ++ "_" ++ uuid_suffix) }
          (toString user_id ++ "_" ++ uuid_suffix) := by
    rw [connect]
    exact send_lookup_false _ _ _ (alookup_aset_self _ _ _)
  constructor
  · rfl
  rw [hred]
  generalize hg : toString user_id ++ "_" ++ uuid_suffix = cid at hu ht hc ⊢
  have hk : hasKey
      ({ s with
         active_connections := aset s.active_connections cid false,
         connection_info := aset s.connection_info cid
           ⟨cid, user_id, tenant_id, now, now, []⟩,
         user_connections := dAdd s.user_connections user_id cid,
         tenant_connections := dAdd s.tenant_connections tenant_id cid } :
        Manager).active_connections cid = true := by
    simp [hasKey, alookup_aset_self]
  have hi : alookup
      ({ s with
         active_connections := aset s.active_connections cid false,
         connection_info := aset s.connection_info cid
           ⟨cid, user_id, tenant_id, now, now, []⟩,
         user_connections := dAdd s.user_connections user_id cid,
         tenant_connections := dAdd s.tenant_connections tenant_id cid } :
        Manager).connection_info cid
      = some ⟨cid, user_id, tenant_id, now, now, []⟩ := by
    simp [alookup_aset_self]
  refine ⟨?_, ?_, ?_, ?_, ?_⟩
  · rw [disconnect_active_lookup, if_pos rfl]
  · rw [disconnect_info_lookup_pos _ _ _ hk, if_pos rfl]
  · intro u
    rw [disconnect_user_dGet _ _ _ hk hi u, dGet_prune]
    by_cases hu2 : u = user_id
    · subst hu2
      rw [dGet_dDiscard_self]
      have hstep : dGet (dAdd s.user_connections u cid) u
          = dGet s.user_connections u ++ [cid] := by
        rw [dGet_dAdd_self, sinsert_of_not_mem _ _ (hu u)]
      rw [hstep, serase_append_singleton _ _ (hu u)]
      exact hu u
    · rw [dGet_dDiscard_ne _ _ _ _ hu2, dGet_dAdd_ne _ _ _ _ hu2]
      exact hu u
  · intro t
    rw [disconnect_tenant_dGet _ _ _ hk hi t, dGet_prune]
    by_cases ht2 : t = tenant_id
    · subst ht2
      rw [dGet_dDiscard_self]
      have hstep : dGet (dAdd s.tenant_connections t cid) t
          = dGet s.tenant_connections t ++ [cid] := by
        rw [dGet_dAdd_self, sinsert_of_not_mem _ _ (ht t)]
      rw [hstep, serase_append_singleton _ _ (ht t)]
      exact ht t
    · rw [dGet_dDiscard_ne _ _ _ _ ht2, dGet_dAdd_ne _ _ _ _ ht2]
      exact ht t
  · intro ch
    rw [disconnect_chsub_dGet _ _ _ hk hi ch]
    exact hc ch

/-- Witness for C10: from the empty registry, a connect whose CONNECT
acknowledgement send raises returns id 1_a while leaving 1_a unregistered
and unindexed everywhere. -/
theorem connect_ack_failure_ghost_id_witness :
    (connect initialManager false 1 "t1" "a" 0).2 = toString 1 ++ "_" ++ "a" ∧
    alookup (connect initialManager false 1 "t1" "a" 0).1.active_connections
        (toString 1 ++ "_" ++ "a") = none ∧
    alookup (connect initialManager false 1 "t1" "a" 0).1.connection_info
        (toString 1 ++ "_" ++ "a") = none ∧
    (∀ u, (toString 1 ++ "_" ++ "a")
        ∉ dGet (connect initialManager false 1 "t1" "a" 0).1.user_connections u) ∧
    (∀ t, (toString 1 ++ "_" ++ "a")
        ∉ dGet (connect initialManager false 1 "t1" "a" 0).1.tenant_connections t) ∧
    (∀ ch, (toString 1 ++ "_" ++ "a")
        ∉ dGet (connect initialManager false 1 "t1" "a" 0).1.channel_subscriptions
            ch) :=
  connect_ack_failure_ghost_id initialManager 1 "t1" "a" 0
    (fun u => List.not_mem_nil _) (fun t => List.not_mem_nil _)
    (fun ch => List.not_mem_nil _)

/-- Claim C4: every fan-out operation (send_to_channel, send_to_user,
send_to_tenant) works on a snapshot of the indexed id set, never raises to
the producer (it is a total function), delivers the wrapped notification to
every indexed connection whose transport is healthy — which also stays
registered — and tears down exactly the connections whose transport send
raises. -/
theorem fanout_isolation (s : Manager) (channel : String) (user_id : Nat)
    (tenant_id : String) (notification : MsgData)
    (hch : ((alookup s.channel_subscriptions channel).getD []).Nodup)
    (hus : ((alookup s.user_connections user_id).getD []).Nodup)
    (hts : ((alookup s.tenant_connections tenant_id).getD []).Nodup) :
    (∀ x ∈ (alookup s.channel_subscriptions channel).getD [],
      (alookup s.active_connections x = some true →
        (x, (⟨MsgType.notification, notification⟩ : WSMessage))
            ∈ (send_to_channel s channel notification).sent ∧
        alookup (send_to_channel s channel notification).active_connections x
            = some true) ∧
      (alookup s.active_connections x = some false →
        alookup (send_to_channel s channel notification).active_connections x
            = none)) ∧
    (∀ x ∈ (alookup s.user_connections user_id).getD [],
      (alookup s.active_connections x = some true →
        (x, (⟨MsgType.notification, notification⟩ : WSMessage))
            ∈ (send_to_user s user_id notification).sent ∧
        alookup (send_to_user s user_id notification).active_connections x
            = some true) ∧
      (alookup s.active_connections x = some false →
        alookup (send_to_user s user_id notification).active_connections x = none)) ∧
    (∀ x ∈ (alookup s.tenant_connections tenant_id).getD [],
      (alookup s.active_connections x = some true →
        (x, (⟨MsgType.notification, notification⟩ : WSMessage))
            ∈ (send_to_tenant s tenant_id notification).sent ∧
        alookup (send_to_tenant s tenant_id notification).active_connections x
            = some true) ∧
      (alookup s.active_connections x = some false →
        alookup (send_to_tenant s tenant_id notification).active_connections x
            = none)) := by
  refine ⟨?_, ?_, ?_⟩
  · intro x hx
    exact fanout_main ⟨MsgType.notification, notification⟩ _ s hch x hx
  · intro x hx
    exact fanout_main ⟨MsgType.notification, notification⟩ _ s hus x hx
  · intro x hx
    exact fanout_main ⟨MsgType.notification, notification⟩ _ s hts x hx

/-- Witness for C4: broadcasting on tenant:broadcast delivers to the two
healthy connections 1_a and 3_c, which stay registered, while the failing
connection 2_b is torn down. -/
theorem fanout_isolation_witness :
    (("1_a", (⟨MsgType.notification, [("k", "v")]⟩ : WSMessage))
        ∈ (send_to_channel c4state "tenant:broadcast" [("k", "v")]).sent ∧
     alookup (send_to_channel c4state "tenant:broadcast"
        [("k", "v")]).active_connections "1_a" = some true) ∧
    (("3_c", (⟨MsgType.notification, [("k", "v")]⟩ : WSMessage))
        ∈ (send_to_channel c4state "tenant:broadcast" [("k", "v")]).sent ∧
     alookup (send_to_channel c4state "tenant:broadcast"
        [("k", "v")]).active_connections "3_c" = some true) ∧
    alookup (send_to_channel c4state "tenant:broadcast"
        [("k", "v")]).active_connections "2_b" = none := by
  have h := fanout_isolation c4state "tenant:broadcast" 1 "t1" [("k", "v")]
    (by decide) (by decide) (by decide)
  exact ⟨(h.1 "1_a" (by decide)).1 (by decide), (h.1 "3_c" (by decide)).1 (by decide),
         (h.1 "2_b" (by decide)).2 (by decide)⟩

/-! ### Claim C2: empty-entry pruning under connect and disconnect -/

theorem mem_aerase_key {α β : Type} [DecidableEq α] (l : List (α × β)) (k : α)
    (p : α × β) (h : p ∈ aerase l k) : p.1 ≠ k := by
  have := List.of_mem_filter h
  simpa using this

theorem entriesNonempty_dAdd {α : Type} [DecidableEq α] (d : List (α × List String))
    (k : α) (x : String) (h : ∀ p ∈ d, p.2 ≠ []) : ∀ p ∈ dAdd d k x, p.2 ≠ [] := by
  intro p hp
  rcases mem_aset _ _ _ _ hp with h1 | h1
  · exact h p h1
  · rw [h1]
    exact sinsert_ne_nil _ _

theorem entriesNonempty_prune_discard {α : Type} [DecidableEq α]
    (d : List (α × List String)) (k : α) (x : String) (h : ∀ p ∈ d, p.2 ≠ []) :
    ∀ p ∈ prune (dDiscard d k x) k, p.2 ≠ [] := by
  intro p hp
  unfold prune at hp
  by_cases he : (dGet (dDiscard d k x) k).isEmpty
  · rw [if_pos he] at hp
    have hne := mem_aerase_key _ _ _ hp
    rcases mem_aset _ _ _ _ (mem_aerase _ _ _ hp) with h1 | h1
    · exact h p h1
    · exact absurd (by rw [h1]) hne
  · rw [if_neg he] at hp
    rcases mem_aset _ _ _ _ hp with h1 | h1
    · exact h p h1
    · rw [h1]
      intro hnil
      have hnil2 : serase (dGet d k) x = [] := hnil
      apply he
      rw [dGet_dDiscard_self, hnil2]
      rfl

theorem entriesNonempty_disconnect (s : Manager) (cid : String)
    (h : entriesNonempty s) : entriesNonempty (disconnect s cid) := by
  by_cases hk : hasKey s.active_connections cid = true
  · rw [disconnect, if_pos hk]
    cases hinfo : alookup s.connection_info cid with
    | none => exact h
    | some i =>
      exact ⟨entriesNonempty_prune_discard _ _ _ h.1,
             entriesNonempty_prune_discard _ _ _ h.2⟩
  · rw [disconnect, if_neg hk]
    exact h

theorem entriesNonempty_send (s : Manager) (cid : String) (m : WSMessage)
    (h : entriesNonempty s) : entriesNonempty (send_to_connection s cid m).1 := by
  cases halo : alookup s.active_connections cid with
  | none => rw [send_lookup_none _ _ _ halo]; exact h
  | some ws =>
    cases ws with
    | true => rw [send_lookup_true _ _ _ halo]; exact h
    | false =>
      rw [send_lookup_false _ _ _ halo]
      exact entriesNonempty_disconnect s cid h

theorem entriesNonempty_connect (s : Manager) (ws : WebSocket) (uid : Nat)
    (tid : String) (sfx : String) (now : Nat) (h : entriesNonempty s) :
    entriesNonempty (connect s ws uid tid sfx now).1 := by
  rw [connect]
  exact entriesNonempty_send _ _ _
    ⟨entriesNonempty_dAdd _ _ _ h.1, entriesNonempty_dAdd _ _ _ h.2⟩

theorem entriesNonempty_ensure (s : Manager) (ch : String) (h : entriesNonempty s) :
    entriesNonempty (ensure_redis_subscription s ch) := by
  rw [ensure_redis_subscription]
  cases alookup s.redis_tasks ch with
  | none => exact h
  | some t =>
    show entriesNonempty (if t.done = true then spawn_redis_task s ch else s)
    by_cases htd : t.done = true
    · rw [if_pos htd]; exact h
    · rw [if_neg htd]; exact h

theorem entriesNonempty_subscribe (s : Manager) (cid ch : String)
    (h : entriesNonempty s) : entriesNonempty (subscribe_to_channel s cid ch).1 := by
  cases hinfo : alookup s.connection_info cid with
  | none => rw [subscribe_to_channel, hinfo]; exact h
  | some i =>
    rw [subscribe_to_channel, hinfo]
    exact entriesNonempty_send _ _ _ (entriesNonempty_ensure _ _ ⟨h.1, h.2⟩)

theorem entriesNonempty_connect_endpoint (s : Manager) (ws : WebSocket) (uid : Nat)
    (tid : String) (sfx : String) (now : Nat) (h : entriesNonempty s) :
    entriesNonempty (connect_endpoint s ws uid tid sfx now).1 := by
  rw [connect_endpoint]
  exact entriesNonempty_subscribe _ _ _
    (entriesNonempty_subscribe _ _ _ (entriesNonempty_connect _ _ _ _ _ _ h))

/-- Claim C2 (amended): after any finite sequence of connect operations
(including their auto-subscriptions to the two default channels) and
disconnect operations, every entry present in the user index and in the
tenant index maps to a non-empty set of connection ids.  The channel index
does not enjoy this property: disconnect never prunes channel entries (see
the counterexample). -/
theorem user_tenant_entries_nonempty (ops : List Op2) :
    entriesNonempty (ops.foldl applyOp2 initialManager) := by
  have main : ∀ (os : List Op2) (s : Manager), entriesNonempty s →
      entriesNonempty (os.foldl applyOp2 s) := by
    intro os
    induction os with
    | nil => exact fun s h => h
    | cons op rest ih =>
      intro s h
      rw [List.foldl_cons]
      apply ih
      cases op with
      | conn ws uid tid sfx now => exact entriesNonempty_connect_endpoint s ws uid tid sfx now h
      | disc cid => exact entriesNonempty_disconnect s cid h
  exact main ops initialManager
    ⟨fun p hp => absurd hp (List.not_mem_nil p),
     fun p hp => absurd hp (List.not_mem_nil p)⟩

/-- Claim C2 counterexample: after one connect (auto-subscribed to the two
default channels) and its disconnect, the channel index still holds an entry
for tenant:broadcast mapping to the empty set — disconnect does not prune
emptied channel entries. -/
theorem no_empty_entry_cex :
    alookup (c2ops.foldl applyOp2 initialManager).channel_subscriptions
        "tenant:broadcast" = some [] ∧
    alookup (c2ops.foldl applyOp2 initialManager).channel_subscriptions
        "user:1:notifications" = some [] := by
  decide

/-! ### Claim C1: the registry index invariant -/

theorem RegInv_of_eq (s' : Manager) (a : List (String × WebSocket))
    (ci : List (String × ConnectionInfo)) (u : List (Nat × List String))
    (t : List (String × List String)) (c : List (String × List String))
    (hA : s'.active_connections = a) (hI : s'.connection_info = ci)
    (hU : s'.user_connections = u) (hT : s'.tenant_connections = t)
    (hC : s'.channel_subscriptions = c)
    (ai : ∀ cid, hasKey a cid = hasKey ci cid)
    (sn : ∀ cid i, alookup ci cid = some i → i.subscriptions.Nodup)
    (un : ∀ x, (dGet u x).Nodup)
    (tn : ∀ x, (dGet t x).Nodup)
    (cn : ∀ x, (dGet c x).Nodup)
    (iu : ∀ x cid, cid ∈ dGet u x ↔ ∃ i, alookup ci cid = some i ∧ i.user_id = x)
    (it : ∀ x cid, cid ∈ dGet t x ↔ ∃ i, alookup ci cid = some i ∧ i.tenant_id = x)
    (ic : ∀ x cid, cid ∈ dGet c x ↔ ∃ i, alookup ci cid = some i ∧ x ∈ i.subscriptions)
    (uk : keysNodup u) (tk : keysNodup t) : RegInv s' := by
  constructor
  · rw [hA, hI]; exact ai
  · rw [hI]; exact sn
  · rw [hU]; exact un
  · rw [hT]; exact tn
  · rw [hC]; exact cn
  · rw [hU, hI]; exact iu
  · rw [hT, hI]; exact it
  · rw [hC, hI]; exact ic
  · rw [hU]; exact uk
  · rw [hT]; exact tk

theorem dGet_fold_discard (cid : String) (subs : List String) :
    ∀ (d : List (String × List String)), subs.Nodup → ∀ ch,
      dGet (subs.foldl (fun d2 c => dDiscard d2 c cid) d) ch
        = if ch ∈ subs then serase (dGet d ch) cid else dGet d ch := by
  induction subs with
  | nil =>
    intro d _ ch
    rw [List.foldl_nil, if_neg (List.not_mem_nil ch)]
  | cons c rest ih =>
    intro d hnd ch
    rw [List.foldl_cons]
    have hcr : c ∉ rest := (List.nodup_cons.mp hnd).1
    have hrn : rest.Nodup := (List.nodup_cons.mp hnd).2
    rw [ih (dDiscard d c cid) hrn ch]
    by_cases hc : ch = c
    · subst hc
      rw [if_neg hcr, if_pos (List.mem_cons_self _ _), dGet_dDiscard_self]
    · by_cases hr : ch ∈ rest
      · rw [if_pos hr, if_pos (List.mem_cons_of_mem _ hr), dGet_dDiscard_ne _ _ _ _ hc]
      · rw [if_neg hr, if_neg (by simp [hc, hr]), dGet_dDiscard_ne _ _ _ _ hc]

theorem disconnect_user_eq (s : Manager) (cid : String) (i : ConnectionInfo)
    (hk : hasKey s.active_connections cid = true)
    (hi : alookup s.connection_info cid = some i) :
    (disconnect s cid).user_connections
      = prune (dDiscard s.user_connections i.user_id cid) i.user_id := by
  rw [disconnect, if_pos hk, hi]

theorem disconnect_tenant_eq (s : Manager) (cid : String) (i : ConnectionInfo)
    (hk : hasKey s.active_connections cid = true)
    (hi : alookup s.connection_info cid = some i) :
    (disconnect s cid).tenant_connections
      = prune (dDiscard s.tenant_connections i.tenant_id cid) i.tenant_id := by
  rw [disconnect, if_pos hk, hi]

theorem disconnect_active_eq (s : Manager) (cid : String) (i : ConnectionInfo)
    (hk : hasKey s.active_connections cid = true)
    (hi : alookup s.connection_info cid = some i) :
    (disconnect s cid).active_connections = aerase s.active_connections cid := by
  rw [disconnect, if_pos hk, hi]

theorem disconnect_info_eq (s : Manager) (cid : String) (i : ConnectionInfo)
    (hk : hasKey s.active_connections cid = true)
    (hi : alookup s.connection_info cid = some i) :
    (disconnect s cid).connection_info = aerase s.connection_info cid := by
  rw [disconnect, if_pos hk, hi]

theorem disconnect_chsub_eq (s : Manager) (cid : String) (i : ConnectionInfo)
    (hk : hasKey s.active_connections cid = true)
    (hi : alookup s.connection_info cid = some i) :
    (disconnect s cid).channel_subscriptions
      = i.subscriptions.foldl (fun d c => dDiscard d c cid) s.channel_subscriptions := by
  rw [disconnect, if_pos hk, hi]

theorem disconnect_inv (s : Manager) (cid : String) (h : RegInv s) :
    RegInv (disconnect s cid) := by
  by_cases hk : hasKey s.active_connections cid = true
  · obtain ⟨i0, hi0⟩ : ∃ i, alookup s.connection_info cid = some i := by
      have hik : hasKey s.connection_info cid = true := by rw [← h.ai]; exact hk
      exact hasKey_true_lookup _ _ hik
    have hsn0 : i0.subscriptions.Nodup := h.sn cid i0 hi0
    refine RegInv_of_eq _ (aerase s.active_connections cid)
      (aerase s.connection_info cid)
      (prune (dDiscard s.user_connections i0.user_id cid) i0.user_id)
      (prune (dDiscard s.tenant_connections i0.tenant_id cid) i0.tenant_id)
      (i0.subscriptions.foldl (fun d c => dDiscard d c cid) s.channel_subscriptions)
      (disconnect_active_eq _ _ _ hk hi0) (disconnect_info_eq _ _ _ hk hi0)
      (disconnect_user_eq _ _ _ hk hi0) (disconnect_tenant_eq _ _ _ hk hi0)
      (disconnect_chsub_eq _ _ _ hk hi0) ?_ ?_ ?_ ?_ ?_ ?_ ?_ ?_ ?_ ?_
    · intro x
      rw [hasKey_aerase, hasKey_aerase]
      by_cases hx : x = cid
      · rw [if_pos hx, if_pos hx]
      · rw [if_neg hx, if_neg hx]
        exact h.ai x
    · intro x i hxi
      by_cases hx : x = cid
      · rw [hx, alookup_aerase_self] at hxi
        exact Option.noConfusion hxi
      · rw [alookup_aerase_ne _ _ _ hx] at hxi
        exact h.sn x i hxi
    · intro x
      rw [dGet_prune]
      by_cases hx : x = i0.user_id
      · rw [hx, dGet_dDiscard_self]
        exact serase_nodup _ _ (h.un _)
      · rw [dGet_dDiscard_ne _ _ _ _ hx]
        exact h.un x
    · intro x
      rw [dGet_prune]
      by_cases hx : x = i0.tenant_id
      · rw [hx, dGet_dDiscard_self]
        exact serase_nodup _ _ (h.tn _)
      · rw [dGet_dDiscard_ne _ _ _ _ hx]
        exact h.tn x
    · intro x
      rw [dGet_fold_discard cid _ _ hsn0 x]
      by_cases hc : x ∈ i0.subscriptions
      · rw [if_pos hc]
        exact serase_nodup _ _ (h.cn _)
      · rw [if_neg hc]
        exact h.cn x
    · intro x y
      rw [dGet_prune]
      by_cases hy : y = cid
      · subst hy
        constructor
        · intro hmem
          exfalso
          by_cases hx : x = i0.user_id
          · rw [hx, dGet_dDiscard_self] at hmem
            exact not_mem_serase _ _ (h.un _) hmem
          · rw [dGet_dDiscard_ne _ _ _ _ hx] at hmem
            obtain ⟨j, hj, hju⟩ := (h.iu x y).mp hmem
            rw [hi0] at hj
            injection hj with hj2
            apply hx
            rw [← hju, ← hj2]
        · rintro ⟨j, hj, hju⟩
          rw [alookup_aerase_self] at hj
          exact Option.noConfusion hj
      · have hlook : alookup (aerase s.connection_info cid) y
            = alookup s.connection_info y := alookup_aerase_ne _ _ _ hy
        rw [hlook]
        by_cases hx : x = i0.user_id
        · rw [hx, dGet_dDiscard_self, mem_serase_of_ne _ _ _ hy]
          exact h.iu i0.user_id y
        · rw [dGet_dDiscard_ne _ _ _ _ hx]
          exact h.iu x y
    · intro x y
      rw [dGet_prune]
      by_cases hy : y = cid
      · subst hy
        constructor
        · intro hmem
          exfalso
          by_cases hx : x = i0.tenant_id
          · rw [hx, dGet_dDiscard_self] at hmem
            exact not_mem_serase _ _ (h.tn _) hmem
          · rw [dGet_dDiscard_ne _ _ _ _ hx] at hmem
            obtain ⟨j, hj, hjt⟩ := (h.it x y).mp hmem
            rw [hi0] at hj
            injection hj with hj2
            apply hx
            rw [← hjt, ← hj2]
        · rintro ⟨j, hj, hjt⟩
          rw [alookup_aerase_self] at hj
          exact Option.noConfusion hj
      · have hlook : alookup (aerase s.connection_info cid) y
            = alookup s.connection_info y := alookup_aerase_ne _ _ _ hy
        rw [hlook]
        by_cases hx : x = i0.tenant_id
        · rw [hx, dGet_dDiscard_self, mem_serase_of_ne _ _ _ hy]
          exact h.it i0.tenant_id y
        · rw [dGet_dDiscard_ne _ _ _ _ hx]
          exact h.it x y
    · intro x y
      rw [dGet_fold_discard cid _ _ hsn0 x]
      by_cases hy : y = cid
      · subst hy
        constructor
        · intro hmem
          exfalso
          by_cases hc : x ∈ i0.subscriptions
          · rw [if_pos hc] at hmem
            exact not_mem_serase _ _ (h.cn _) hmem
          · rw [if_neg hc] at hmem
            obtain ⟨j, hj, hjc⟩ := (h.ic x y).mp hmem
            rw [hi0] at hj
            injection hj with hj2
            apply hc
            rw [hj2]
            exact hjc
        · rintro ⟨j, hj, hjc⟩
          rw [alookup_aerase_self] at hj
          exact Option.noConfusion hj
      · have hlook : alookup (aerase s.connection_info cid) y
            = alookup s.connection_info y := alookup_aerase_ne _ _ _ hy
        rw [hlook]
        by_cases hc : x ∈ i0.subscriptions
        · rw [if_pos hc, mem_serase_of_ne _ _ _ hy]
          exact h.ic x y
        · rw [if_neg hc]
          exact h.ic x y
    · exact keysNodup_prune _ _ (keysNodup_aset _ _ _ h.uk)
    · exact keysNodup_prune _ _ (keysNodup_aset _ _ _ h.tk)
  · rw [disconnect, if_neg hk]
    exact h

theorem send_inv (s : Manager) (cid : String) (m : WSMessage) (h : RegInv s) :
    RegInv (send_to_connection s cid m).1 := by
  cases halo : alookup s.active_connections cid with
  | none => rw [send_lookup_none _ _ _ halo]; exact h
  | some ws =>
    cases ws with
    | true =>
      rw [send_lookup_true _ _ _ halo]
      exact RegInv_of_eq _ _ _ _ _ _ rfl rfl rfl rfl rfl h.ai h.sn h.un h.tn h.cn
        h.iu h.it h.ic h.uk h.tk
    | false =>
      rw [send_lookup_false _ _ _ halo]
      exact disconnect_inv s cid h

theorem ensure_inv (s : Manager) (ch : String) (h : RegInv s) :
    RegInv (ensure_redis_subscription s ch) := by
  rw [ensure_redis_subscription]
  cases alookup s.redis_tasks ch with
  | none =>
    exact RegInv_of_eq _ _ _ _ _ _ rfl rfl rfl rfl rfl h.ai h.sn h.un h.tn h.cn
      h.iu h.it h.ic h.uk h.tk
  | some t =>
    show RegInv (if t.done = true then spawn_redis_task s ch else s)
    by_cases htd : t.done = true
    · rw [if_pos htd]
      exact RegInv_of_eq _ _ _ _ _ _ rfl rfl rfl rfl rfl h.ai h.sn h.un h.tn h.cn
        h.iu h.it h.ic h.uk h.tk
    · rw [if_neg htd]
      exact h

theorem stop_inv (s : Manager) (ch : String) (h : RegInv s) :
    RegInv (stop_redis_subscription s ch) := by
  rw [stop_redis_subscription]
  by_cases hk : hasKey s.redis_tasks ch = true
  · rw [if_pos hk]
    exact RegInv_of_eq _ _ _ _ _ _ rfl rfl rfl rfl rfl h.ai h.sn h.un h.tn h.cn
      h.iu h.it h.ic h.uk h.tk
  · rw [if_neg hk]
    exact h

theorem ai_aset_info (s : Manager) (cid : String) (i0 i1 : ConnectionInfo)
    (hinfo : alookup s.connection_info cid = some i0) (h : RegInv s) :
    ∀ x, hasKey s.active_connections x = hasKey (aset s.connection_info cid i1) x := by
  intro x
  rw [hasKey_aset]
  by_cases hx : x = cid
  · rw [if_pos hx, hx, h.ai cid, hasKey, hinfo]
    rfl
  · rw [if_neg hx]
    exact h.ai x

theorem iu_aset_info (s : Manager) (cid : String) (i0 i1 : ConnectionInfo)
    (hinfo : alookup s.connection_info cid = some i0)
    (huid : i1.user_id = i0.user_id) (h : RegInv s) :
    ∀ x y, y ∈ dGet s.user_connections x ↔
      ∃ i, alookup (aset s.connection_info cid i1) y = some i ∧ i.user_id = x := by
  intro x y
  by_cases hy : y = cid
  · subst hy
    rw [alookup_aset_self]
    constructor
    · intro hmem
      obtain ⟨j, hj, hju⟩ := (h.iu x y).mp hmem
      rw [hinfo] at hj
      injection hj with h2
      refine ⟨i1, rfl, ?_⟩
      rw [huid, h2]
      exact hju
    · rintro ⟨j, hj, hju⟩
      injection hj with h2
      apply (h.iu x y).mpr
      refine ⟨i0, hinfo, ?_⟩
      rw [← huid, h2]
      exact hju
  · rw [alookup_aset_ne _ _ _ _ hy]
    exact h.iu x y

theorem it_aset_info (s : Manager) (cid : String) (i0 i1 : ConnectionInfo)
    (hinfo : alookup s.connection_info cid = some i0)
    (htid : i1.tenant_id = i0.tenant_id) (h : RegInv s) :
    ∀ x y, y ∈ dGet s.tenant_connections x ↔
      ∃ i, alookup (aset s.connection_info cid i1) y = some i ∧ i.tenant_id = x := by
  intro x y
  by_cases hy : y = cid
  · subst hy
    rw [alookup_aset_self]
    constructor
    · intro hmem
      obtain ⟨j, hj, hjt⟩ := (h.it x y).mp hmem
      rw [hinfo] at hj
      injection hj with h2
      refine ⟨i1, rfl, ?_⟩
      rw [htid, h2]
      exact hjt
    · rintro ⟨j, hj, hjt⟩
      injection hj with h2
      apply (h.it x y).mpr
      refine ⟨i0, hinfo, ?_⟩
      rw [← htid, h2]
      exact hjt
  · rw [alookup_aset_ne _ _ _ _ hy]
    exact h.it x y

theorem ic_aset_info (s : Manager) (cid : String) (i0 i1 : ConnectionInfo)
    (hinfo : alookup s.connection_info cid = some i0)
    (hsubs : i1.subscriptions = i0.subscriptions) (h : RegInv s) :
    ∀ x y, y ∈ dGet s.channel_subscriptions x ↔
      ∃ i, alookup (aset s.connection_info cid i1) y = some i ∧ x ∈ i.subscriptions := by
  intro x y
  by_cases hy : y = cid
  · subst hy
    rw [alookup_aset_self]
    constructor
    · intro hmem
      obtain ⟨j, hj, hjc⟩ := (h.ic x y).mp hmem
      rw [hinfo] at hj
      injection hj with h2
      refine ⟨i1, rfl, ?_⟩
      rw [hsubs, h2]
      exact hjc
    · rintro ⟨j, hj, hjc⟩
      injection hj with h2
      apply (h.ic x y).mpr
      refine ⟨i0, hinfo, ?_⟩
      rw [← hsubs, h2]
      exact hjc
  · rw [alookup_aset_ne _ _ _ _ hy]
    exact h.ic x y

theorem connect_inv (s : Manager) (ws : WebSocket) (uid : Nat) (tid : String)
    (sfx : String) (now : Nat)
    (hfresh : hasKey s.active_connections (toString uid ++ "_" ++ sfx) = false)
    (h : RegInv s) : RegInv (connect s ws uid tid sfx now).1 := by
  have hnone : alookup s.connection_info (toString uid ++ "_" ++ sfx) = none := by
    apply hasKey_false_lookup
    rw [← h.ai]
    exact hfresh
  rw [connect]
  apply send_inv
  refine RegInv_of_eq _ (aset s.active_connections (toString uid ++ "_" ++ sfx) ws)
    (aset s.connection_info (toString uid ++ "_" ++ sfx)
      ⟨toString uid ++ "_" ++ sfx, uid, tid, now, now, []⟩)
    (dAdd s.user_connections uid (toString uid ++ "_" ++ sfx))
    (dAdd s.tenant_connections tid (toString uid ++ "_" ++ sfx))
    s.channel_subscriptions rfl rfl rfl rfl rfl ?_ ?_ ?_ ?_ h.cn ?_ ?_ ?_ ?_ ?_
  · intro x
    rw [hasKey_aset, hasKey_aset]
    by_cases hx : x = toString uid ++ "_" ++ sfx
    · rw [if_pos hx, if_pos hx]
    · rw [if_neg hx, if_neg hx]
      exact h.ai x
  · intro x i hxi
    by_cases hx : x = toString uid ++ "_" ++ sfx
    · rw [hx, alookup_aset_self] at hxi
      injection hxi with h2
      rw [← h2]
      exact List.nodup_nil
    · rw [alookup_aset_ne _ _ _ _ hx] at hxi
      exact h.sn x i hxi
  · intro x
    by_cases hx : x = uid
    · rw [hx, dGet_dAdd_self]
      exact sinsert_nodup _ _ (h.un uid)
    · rw [dGet_dAdd_ne _ _ _ _ hx]
      exact h.un x
  · intro x
    by_cases hx : x = tid
    · rw [hx, dGet_dAdd_self]
      exact sinsert_nodup _ _ (h.tn tid)
    · rw [dGet_dAdd_ne _ _ _ _ hx]
      exact h.tn x
  · intro x y
    by_cases hy : y = toString uid ++ "_" ++ sfx
    · subst hy
      rw [alookup_aset_self]
      by_cases hx : x = uid
      · subst hx
        rw [dGet_dAdd_self, mem_sinsert]
        constructor
        · intro _
          exact ⟨_, rfl, rfl⟩
        · intro _
          exact Or.inr rfl
      · rw [dGet_dAdd_ne _ _ _ _ hx]
        constructor
        · intro hmem
          obtain ⟨j, hj, _⟩ := (h.iu x (toString uid ++ "_" ++ sfx)).mp hmem
          rw [hnone] at hj
          exact Option.noConfusion hj
        · rintro ⟨j, hj, hju⟩
          injection hj with h2
          exfalso
          apply hx
          rw [← hju, ← h2]
    · rw [alookup_aset_ne _ _ _ _ hy]
      by_cases hx : x = uid
      · rw [hx, dGet_dAdd_self, mem_sinsert]
        constructor
        · rintro (hmem | hcid)
          · exact (h.iu uid y).mp hmem
          · exact absurd hcid hy
        · intro hex
          exact Or.inl ((h.iu uid y).mpr hex)
      · rw [dGet_dAdd_ne _ _ _ _ hx]
        exact h.iu x y
  · intro x y
    by_cases hy : y = toString uid ++ "_" ++ sfx
    · subst hy
      rw [alookup_aset_self]
      by_cases hx : x = tid
      · subst hx
        rw [dGet_dAdd_self, mem_sinsert]
        constructor
        · intro _
          exact ⟨_, rfl, rfl⟩
        · intro _
          exact Or.inr rfl
      · rw [dGet_dAdd_ne _ _ _ _ hx]
        constructor
        · intro hmem
          obtain ⟨j, hj, _⟩ := (h.it x (toString uid ++ "_" ++ sfx)).mp hmem
          rw [hnone] at hj
          exact Option.noConfusion hj
        · rintro ⟨j, hj, hjt⟩
          injection hj with h2
          exfalso
          apply hx
          rw [← hjt, ← h2]
    · rw [alookup_aset_ne _ _ _ _ hy]
      by_cases hx : x = tid
      · rw [hx, dGet_dAdd_self, mem_sinsert]
        constructor
        · rintro (hmem | hcid)
          · exact (h.it tid y).mp hmem
          · exact absurd hcid hy
        · intro hex
          exact Or.inl ((h.it tid y).mpr hex)
      · rw [dGet_dAdd_ne _ _ _ _ hx]
        exact h.it x y
  · intro x y
    by_cases hy : y = toString uid ++ "_" ++ sfx
    · subst hy
      rw [alookup_aset_self]
      constructor
      · intro hmem
        obtain ⟨j, hj, _⟩ := (h.ic x (toString uid ++ "_" ++ sfx)).mp hmem
        rw [hnone] at hj
        exact Option.noConfusion hj
      · rintro ⟨j, hj, hjc⟩
        injection hj with h2
        rw [← h2] at hjc
        exact absurd hjc (List.not_mem_nil x)
    · rw [alookup_aset_ne _ _ _ _ hy]
      exact h.ic x y
  · exact keysNodup_aset _ _ _ h.uk
  · exact keysNodup_aset _ _ _ h.tk

theorem subscribe_inv (s : Manager) (cid ch : String)
    (hg : subGuard s cid ch = true) (h : RegInv s) :
    RegInv (subscribe_to_channel s cid ch).1 := by
  cases hinfo : alookup s.connection_info cid with
  | none => rw [subscribe_to_channel, hinfo]; exact h
  | some i0 =>
    have hch : ch ∉ i0.subscriptions := by
      have hg2 : subGuard s cid ch = decide (ch ∉ i0.subscriptions) := by
        unfold subGuard
        rw [hinfo]
      rw [hg2] at hg
      exact of_decide_eq_true hg
    rw [subscribe_to_channel, hinfo]
    apply send_inv
    apply ensure_inv
    refine RegInv_of_eq _ s.active_connections
      (aset s.connection_info cid
        ({ i0 with subscriptions := i0.subscriptions ++ [ch] }))
      s.user_connections s.tenant_connections
      (dAdd s.channel_subscriptions ch cid)
      rfl rfl rfl rfl rfl
      (ai_aset_info s cid i0 _ hinfo h) ?_ h.un h.tn ?_
      (iu_aset_info s cid i0 _ hinfo rfl h) (it_aset_info s cid i0 _ hinfo rfl h)
      ?_ h.uk h.tk
    · intro x i hxi
      by_cases hx : x = cid
      · rw [hx, alookup_aset_self] at hxi
        injection hxi with h2
        rw [← h2]
        exact nodup_append_singleton _ _ (h.sn cid i0 hinfo) hch
      · rw [alookup_aset_ne _ _ _ _ hx] at hxi
        exact h.sn x i hxi
    · intro x
      by_cases hx : x = ch
      · rw [hx, dGet_dAdd_self]
        exact sinsert_nodup _ _ (h.cn ch)
      · rw [dGet_dAdd_ne _ _ _ _ hx]
        exact h.cn x
    · intro x y
      by_cases hy : y = cid
      · rw [hy, alookup_aset_self]
        by_cases hx : x = ch
        · subst hx
          rw [dGet_dAdd_self, mem_sinsert]
          constructor
          · intro _
            refine ⟨_, rfl, ?_⟩
            show x ∈ i0.subscriptions ++ [x]
            simp
          · intro _
            exact Or.inr rfl
        · rw [dGet_dAdd_ne _ _ _ _ hx]
          constructor
          · intro hmem
            obtain ⟨j, hj, hjx⟩ := (h.ic x cid).mp hmem
            rw [hinfo] at hj
            injection hj with h2
            refine ⟨_, rfl, ?_⟩
            show x ∈ i0.subscriptions ++ [ch]
            apply List.mem_append_left
            rw [h2]
            exact hjx
          · rintro ⟨j, hj, hjx⟩
            injection hj with h2
            apply (h.ic x cid).mpr
            refine ⟨i0, hinfo, ?_⟩
            rw [← h2] at hjx
            have hjx2 : x ∈ i0.subscriptions ++ [ch] := hjx
            rcases List.mem_append.mp hjx2 with hm | hm
            · exact hm
            · exact absurd (List.mem_singleton.mp hm) hx
      · rw [alookup_aset_ne _ _ _ _ hy]
        by_cases hx : x = ch
        · rw [hx, dGet_dAdd_self, mem_sinsert]
          constructor
          · rintro (hm | hm)
            · exact (h.ic ch y).mp hm
            · exact absurd hm hy
          · intro hex
            exact Or.inl ((h.ic ch y).mpr hex)
        · rw [dGet_dAdd_ne _ _ _ _ hx]
          exact h.ic x y

theorem stop_fields (s : Manager) (ch : String) :
    (stop_redis_subscription s ch).active_connections = s.active_connections ∧
    (stop_redis_subscription s ch).connection_info = s.connection_info ∧
    (stop_redis_subscription s ch).user_connections = s.user_connections ∧
    (stop_redis_subscription s ch).tenant_connections = s.tenant_connections ∧
    (stop_redis_subscription s ch).channel_subscriptions = s.channel_subscriptions := by
  rw [stop_redis_subscription]
  by_cases hk : hasKey s.redis_tasks ch = true
  · rw [if_pos hk]
    exact ⟨rfl, rfl, rfl, rfl, rfl⟩
  · rw [if_neg hk]
    exact ⟨rfl, rfl, rfl, rfl, rfl⟩

theorem isEmpty_true_eq_nil (l : List String) (h : l.isEmpty = true) : l = [] := by
  cases l with
  | nil => rfl
  | cons a rest => cases h

theorem prune_channel_inv (t : Manager) (ch : String) (h : RegInv t) :
    RegInv (if (dGet t.channel_subscriptions ch).isEmpty = true
      then (let sa := stop_redis_subscription t ch
            { sa with channel_subscriptions := aerase sa.channel_subscriptions ch })
      else t) := by
  split
  next hemp =>
    have hnil : dGet t.channel_subscriptions ch = [] := isEmpty_true_eq_nil _ hemp
    refine RegInv_of_eq _ t.active_connections t.connection_info t.user_connections
      t.tenant_connections (aerase t.channel_subscriptions ch)
      ((stop_fields _ _).1) ((stop_fields _ _).2.1) ((stop_fields _ _).2.2.1)
      ((stop_fields _ _).2.2.2.1)
      (congrArg (fun l => aerase l ch) (stop_fields _ _).2.2.2.2)
      h.ai h.sn h.un h.tn ?_ h.iu h.it ?_ h.uk h.tk
    · intro x
      by_cases hx : x = ch
      · rw [hx, dGet_aerase_self]
        exact List.nodup_nil
      · rw [dGet_aerase_ne _ _ _ hx]
        exact h.cn x
    · intro x y
      by_cases hx : x = ch
      · rw [hx, dGet_aerase_self]
        constructor
        · intro hmem
          exact absurd hmem (List.not_mem_nil y)
        · rintro ⟨j, hj, hjc⟩
          have hmem2 : y ∈ dGet t.channel_subscriptions ch :=
            (h.ic ch y).mpr ⟨j, hj, hjc⟩
          rw [hnil] at hmem2
          exact absurd hmem2 (List.not_mem_nil y)
      · rw [dGet_aerase_ne _ _ _ hx]
        exact h.ic x y
  next => exact h

theorem unsubscribe_inv (s : Manager) (cid ch : String) (h : RegInv s) :
    RegInv (unsubscribe_from_channel s cid ch).1 := by
  cases hinfo : alookup s.connection_info cid with
  | none => rw [unsubscribe_from_channel, hinfo]; exact h
  | some i0 =>
    have hsn0 := h.sn cid i0 hinfo
    have hS1 : RegInv
        { s with
          channel_subscriptions := dDiscard s.channel_subscriptions ch cid,
          connection_info := aset s.connection_info cid
            ({ i0 with subscriptions :=
                if ch ∈ i0.subscriptions then serase i0.subscriptions ch
                else i0.subscriptions }) } := by
      refine RegInv_of_eq _ s.active_connections
        (aset s.connection_info cid
          ({ i0 with subscriptions :=
              if ch ∈ i0.subscriptions then serase i0.subscriptions ch
              else i0.subscriptions }))
        s.user_connections s.tenant_connections
        (dDiscard s.channel_subscriptions ch cid)
        rfl rfl rfl rfl rfl
        (ai_aset_info s cid i0 _ hinfo h) ?_ h.un h.tn ?_
        (iu_aset_info s cid i0 _ hinfo rfl h) (it_aset_info s cid i0 _ hinfo rfl h)
        ?_ h.uk h.tk
      · intro x i hxi
        by_cases hx : x = cid
        · rw [hx, alookup_aset_self] at hxi
          injection hxi with h2
          rw [← h2]
          show (if ch ∈ i0.subscriptions then serase i0.subscriptions ch
              else i0.subscriptions).Nodup
          by_cases hm : ch ∈ i0.subscriptions
          · rw [if_pos hm]
            exact serase_nodup _ _ hsn0
          · rw [if_neg hm]
            exact hsn0
        · rw [alookup_aset_ne _ _ _ _ hx] at hxi
          exact h.sn x i hxi
      · intro x
        by_cases hx : x = ch
        · rw [hx, dGet_dDiscard_self]
          exact serase_nodup _ _ (h.cn ch)
        · rw [dGet_dDiscard_ne _ _ _ _ hx]
          exact h.cn x
      · intro x y
        by_cases hy : y = cid
        · rw [hy, alookup_aset_self]
          by_cases hx : x = ch
          · subst hx
            rw [dGet_dDiscard_self]
            constructor
            · intro hmem
              exact absurd hmem (not_mem_serase _ _ (h.cn x))
            · rintro ⟨j, hj, hjc⟩
              injection hj with h2
              rw [← h2] at hjc
              have hjc2 : x ∈ (if x ∈ i0.subscriptions then serase i0.subscriptions x
                  else i0.subscriptions) := hjc
              by_cases hm : x ∈ i0.subscriptions
              · rw [if_pos hm] at hjc2
                exact absurd hjc2 (not_mem_serase _ _ hsn0)
              · rw [if_neg hm] at hjc2
                exact absurd hjc2 hm
          · rw [dGet_dDiscard_ne _ _ _ _ hx]
            constructor
            · intro hmem
              obtain ⟨j, hj, hjx⟩ := (h.ic x cid).mp hmem
              rw [hinfo] at hj
              injection hj with h2
              refine ⟨_, rfl, ?_⟩
              show x ∈ (if ch ∈ i0.subscriptions then serase i0.subscriptions ch
                  else i0.subscriptions)
              by_cases hm : ch ∈ i0.subscriptions
              · rw [if_pos hm, mem_serase_of_ne _ _ _ hx, h2]
                exact hjx
              · rw [if_neg hm, h2]
                exact hjx
            · rintro ⟨j, hj, hjx⟩
              injection hj with h2
              apply (h.ic x cid).mpr
              refine ⟨i0, hinfo, ?_⟩
              rw [← h2] at hjx
              have hjx2 : x ∈ (if ch ∈ i0.subscriptions then serase i0.subscriptions ch
                  else i0.subscriptions) := hjx
              by_cases hm : ch ∈ i0.subscriptions
              · rw [if_pos hm, mem_serase_of_ne _ _ _ hx] at hjx2
                exact hjx2
              · rw [if_neg hm] at hjx2
                exact hjx2
        · rw [alookup_aset_ne _ _ _ _ hy]
          by_cases hx : x = ch
          · rw [hx, dGet_dDiscard_self, mem_serase_of_ne _ _ _ hy]
            exact h.ic ch y
          · rw [dGet_dDiscard_ne _ _ _ _ hx]
            exact h.ic x y
    rw [unsubscribe_from_channel, hinfo]
    apply send_inv
    exact prune_channel_inv _ ch hS1

theorem heartbeat_inv (s : Manager) (cid : String) (now : Nat) (h : RegInv s) :
    RegInv (handle_heartbeat s cid now) := by
  cases hinfo : alookup s.connection_info cid with
  | none => rw [handle_heartbeat, hinfo]; exact h
  | some i0 =>
    rw [handle_heartbeat, hinfo]
    apply send_inv
    refine RegInv_of_eq _ s.active_connections
      (aset s.connection_info cid ({ i0 with last_heartbeat := now }))
      s.user_connections s.tenant_connections s.channel_subscriptions
      rfl rfl rfl rfl rfl
      (ai_aset_info s cid i0 _ hinfo h) ?_ h.un h.tn h.cn
      (iu_aset_info s cid i0 _ hinfo rfl h) (it_aset_info s cid i0 _ hinfo rfl h)
      (ic_aset_info s cid i0 _ hinfo rfl h) h.uk h.tk
    intro x i hxi
    by_cases hx : x = cid
    · rw [hx, alookup_aset_self] at hxi
      injection hxi with h2
      rw [← h2]
      exact h.sn cid i0 hinfo
    · rw [alookup_aset_ne _ _ _ _ hx] at hxi
      exact h.sn x i hxi

theorem handle_message_inv (s : Manager) (cid : String) (frame : RawFrame) (now : Nat)
    (hg : okOp s (Op.msg cid frame now) = true) (h : RegInv s) :
    RegInv (handle_message s cid frame now) := by
  cases frame with
  | invalid => exact send_inv _ _ _ h
  | valid t ch =>
    cases t with
    | subscribe =>
      cases ch with
      | none => exact h
      | some c => exact subscribe_inv s cid c hg h
    | unsubscribe =>
      cases ch with
      | none => exact h
      | some c => exact unsubscribe_inv s cid c h
    | heartbeat => exact heartbeat_inv s cid now h
    | connect => exact h
    | disconnect => exact h
    | notification => exact h
    | error => exact h
    | ack => exact h

theorem applyOp_inv (s : Manager) (op : Op) (hg : okOp s op = true) (h : RegInv s) :
    RegInv (applyOp s op) := by
  cases op with
  | conn ws uid tid sfx now =>
    apply connect_inv
    · have hb : (!(hasKey s.active_connections (toString uid ++ "_" ++ sfx)))
          = true := hg
      simpa using hb
    · exact h
  | disc cid => exact disconnect_inv s cid h
  | sub cid ch => exact subscribe_inv s cid ch hg h
  | unsub cid ch => exact unsubscribe_inv s cid ch h
  | msg cid f now => exact handle_message_inv s cid f now hg h

theorem reachable_inv (s : Manager) (h : ReachableG s) : RegInv s := by
  induction h with
  | init =>
    refine ⟨fun _ => rfl, ?_, ?_, ?_, ?_, ?_, ?_, ?_, ?_, ?_⟩
    · intro cid i hxi
      exact Option.noConfusion hxi
    · intro x
      exact List.nodup_nil
    · intro x
      exact List.nodup_nil
    · intro x
      exact List.nodup_nil
    · intro x y
      constructor
      · intro hm
        exact absurd hm (List.not_mem_nil y)
      · rintro ⟨j, hj, _⟩
        exact Option.noConfusion hj
    · intro x y
      constructor
      · intro hm
        exact absurd hm (List.not_mem_nil y)
      · rintro ⟨j, hj, _⟩
        exact Option.noConfusion hj
    · intro x y
      constructor
      · intro hm
        exact absurd hm (List.not_mem_nil y)
      · rintro ⟨j, hj, _⟩
        exact Option.noConfusion hj
    · exact List.nodup_nil
    · exact List.nodup_nil
  | step s' op hr hok ih => exact applyOp_inv s' op hok ih

/-- Claim C1 (amended): for every state reachable by the public operations
restricted so that generated connection ids are fresh and no subscribe —
direct or via an inbound frame — targets a channel already in the
connection's subscription list, every registered connection id appears in
exactly one user-index set and exactly one tenant-index set, and appears in
the channel-index set of a channel exactly when that channel is in its
subscription list.  (Without the no-duplicate-subscribe restriction the
claim is false: subscribe appends to the subscription list unconditionally
while the channel-index set insert is idempotent, so subscribing twice and
unsubscribing once breaks the equivalence — see the counterexample.) -/
theorem registry_index_invariant (s : Manager) (hreach : ReachableG s) (cid : String)
    (i : ConnectionInfo) (hi : alookup s.connection_info cid = some i) :
    s.user_connections.countP (fun p => decide (cid ∈ p.2)) = 1 ∧
    s.tenant_connections.countP (fun p => decide (cid ∈ p.2)) = 1 ∧
    (∀ ch, cid ∈ dGet s.channel_subscriptions ch ↔ ch ∈ i.subscriptions) := by
  have h := reachable_inv s hreach
  refine ⟨?_, ?_, ?_⟩
  · refine countP_keyed cid i.user_id s.user_connections h.uk ?_
    intro u
    rw [h.iu u cid]
    constructor
    · rintro ⟨j, hj, hju⟩
      rw [hi] at hj
      injection hj with h2
      rw [← hju, h2]
    · rintro rfl
      exact ⟨i, hi, rfl⟩
  · refine countP_keyed cid i.tenant_id s.tenant_connections h.tk ?_
    intro t
    rw [h.it t cid]
    constructor
    · rintro ⟨j, hj, hjt⟩
      rw [hi] at hj
      injection hj with h2
      rw [← hjt, h2]
    · rintro rfl
      exact ⟨i, hi, rfl⟩
  · intro ch
    rw [h.ic ch cid]
    constructor
    · rintro ⟨j, hj, hjc⟩
      rw [hi] at hj
      injection hj with h2
      rw [h2]
      exact hjc
    · intro hc
      exact ⟨i, hi, hc⟩

/-- Witness for C1 (amended): after a guarded connect and one guarded
subscribe, connection 1_a is counted in exactly one user-index entry and one
tenant-index entry and sits in the channel-index set of chX. -/
theorem registry_index_invariant_witness :
    (applyOp (applyOp initialManager (Op.conn true 1 "t1" "a" 0))
        (Op.sub "1_a" "chX")).user_connections.countP
        (fun p => decide ("1_a" ∈ p.2)) = 1 ∧
    (applyOp (applyOp initialManager (Op.conn true 1 "t1" "a" 0))
        (Op.sub "1_a" "chX")).tenant_connections.countP
        (fun p => decide ("1_a" ∈ p.2)) = 1 ∧
    "1_a" ∈ dGet (applyOp (applyOp initialManager (Op.conn true 1 "t1" "a" 0))
        (Op.sub "1_a" "chX")).channel_subscriptions "chX" := by
  have h := registry_index_invariant
    (applyOp (applyOp initialManager (Op.conn true 1 "t1" "a" 0)) (Op.sub "1_a" "chX"))
    (ReachableG.step _ _ (ReachableG.step _ _ ReachableG.init (by decide)) (by decide))
    "1_a" ⟨"1_a", 1, "t1", 0, 0, ["chX"]⟩ (by decide)
  exact ⟨h.1, h.2.1, (h.2.2 "chX").mpr (by decide)⟩

/-- Claim C1 counterexample: after subscribing twice to chX and unsubscribing
once, chX is still in connection 1_a's subscription list, but 1_a is no
longer in the channel-index set of chX — the claimed equivalence fails after
a sequence of public operations. -/
theorem registry_invariant_cex :
    alookup (runOps initialManager c1ops).connection_info "1_a"
        = some ⟨"1_a", 1, "t1", 0, 0, ["chX"]⟩ ∧
    "1_a" ∉ dGet (runOps initialManager c1ops).channel_subscriptions "chX" := by
  decide
